import Mathlib

/-!
# loadstress daemon: status word, result channel, shutdown

A shallow embedding of `cmd/loadstressed/daemon.go`.

* The process-wide variables `status` and `restulCh` are the fields of `World`.
* Everything the program shows to the outside (standard output, the loggers) and the
  calls it makes on the driver are appended to `World.trace`; each entry also records
  the value of the status word at the moment of the effect.
* The driver (package `client`) is an interface whose implementations are not part of
  this program; it is a parameter (`Client`), with an explicit driver state.
* The channel carries pointers (`*CallResult`); a nil pointer is `none`.
-/

namespace Loadstress

/-! ## Constants and data -/

/-- Go: `STATUS_INT int32 = iota`, the value the variable `status` is declared with. -/
def STATUS_INT : Int := 0
/-- Go: `STATUS_STARTING`, second constant of the iota block. -/
def STATUS_STARTING : Int := 1
/-- Go: `STATUS_RUNNING`. -/
def STATUS_RUNNING : Int := 2
/-- Go: `STATUS_STOPPING`. -/
def STATUS_STOPPING : Int := 3
/-- Go: `STATUS_STOPPED`. -/
def STATUS_STOPPED : Int := 4

/-- A Go `error` value that is not nil, by its message; `Option GoError` is an `error`. -/
abbrev GoError := String

/-- Modelled from the spec: the declaration of `loadstress_messages.SimpleResponse` is
missing from the sources; the one field the daemon reads. -/
structure SimpleResponse where
  RespId : Int
deriving DecidableEq, Repr

/-- Modelled from the spec: the declaration of `loadstress_messages.CallResult` is
missing from the sources; the spec gives a value with a response, a status and an
elapsed time, and the daemon reads `r.Resp.RespId`, `r.Status`, `r.Elapsed`. This is
the value a non-nil `*CallResult` points to. -/
structure CallResult where
  Resp : SimpleResponse
  Status : Int
  Elapsed : Int
deriving DecidableEq, Repr

/-- Lines written with `fmt.Printf`. -/
inductive Line where
  /-- The line `callId:%d result:%v elapsed:%d ns`. -/
  | result (callId : Int) (status : Int) (elapsed : Int)
  /-- The line `result ch emplty.`. -/
  | chEmpty
  /-- The line `total calls:%v`. -/
  | total (n : Int)
  /-- The line `time omit:%v` of `runWithConnection`. -/
  | timeOmit
deriving DecidableEq, Repr

/-- Messages given to the loggers. -/
inductive LogMsg where
  /-- Message `stop loadstress because of:%s`. -/
  | stopBecause (err : Option GoError)
  /-- Message `result channel full`. -/
  | channelFull
  /-- Message `finished loadstess.`. -/
  | finished
  /-- Message `create connection:%d failed:%v.`. -/
  | createFailed (i : Nat) (err : GoError)
  /-- Message `%d qps cost:%d.` of `runQps`. -/
  | qpsCost
deriving DecidableEq, Repr

/-- Log levels used by the daemon: `Infof`, `Warn`, `log.Fatalf`. -/
inductive Level where
  | info
  | warn
  | fatal
deriving DecidableEq, Repr

/-- Effects of the program, in the order they happen. -/
inductive Event where
  /-- A line on standard output. -/
  | print (l : Line)
  /-- A logger call. -/
  | log (lvl : Level) (m : LogMsg)
  /-- A store to the status word: the plain assignment in `main` or a successful
  compare-and-swap. -/
  | statusWrite (v : Int)
  /-- The call `testDriver.CreateConnection`. -/
  | CreateConnection
  /-- The statement `wg.Add(1)` of `main`. -/
  | wgAdd
  /-- The statement `go runWithConnection(deadlineContext, cs)` for the connection in slot `i`. -/
  | goRunWithConnection (i : Nat)
  /-- The return of `wg.Wait()` in `main`. -/
  | wgWait
  /-- The statement `close(restulCh)`. -/
  | closeCh
  /-- The call `conn.BuildReq()`. -/
  | BuildReq
  /-- The call `handleCallError(req, err)`. -/
  | handleCallError (err : GoError)
  /-- The call `conn.Call(timeoutCtx, req)`. -/
  | Call
  /-- The call `conn.BuildResp(resp)`. -/
  | BuildResp
  /-- The call `sendResult(callResult)`; `none` is a nil pointer. -/
  | sendResult (r : Option CallResult)
deriving DecidableEq, Repr

/-- One entry of the trace: the effect and the value of `status` when it happened. -/
structure Obs where
  ev : Event
  status : Int
deriving DecidableEq, Repr

/-- A buffered Go channel of `*CallResult`: its capacity (fixed by `make`) and the
buffered pointers, oldest first; `none` is a nil pointer. -/
structure Chan where
  cap : Nat
  buf : List (Option CallResult)
deriving DecidableEq, Repr

/-- The process-wide variables `status` and `restulCh`, and the trace of effects. -/
structure World where
  status : Int
  restulCh : Chan
  trace : List Obs
deriving DecidableEq, Repr

/-- The capacity given to `make` for `restulCh`. -/
def restulChCap : Nat := 100000

/-- The package-level variable initialisers: `status = STATUS_INT`,
`restulCh = make(chan *CallResult, 100000)`. -/
def initWorld : World :=
  { status := STATUS_INT, restulCh := { cap := restulChCap, buf := [] }, trace := [] }

/-- Append an effect to the trace, stamped with the current status. -/
def World.emit (w : World) (e : Event) : World :=
  { w with trace := w.trace ++ [{ ev := e, status := w.status }] }

/-- A store of `v` to the status word; the store is recorded in the trace. Every change
of `status` in this file goes through this function. -/
def World.storeStatus (w : World) (v : Int) : World :=
  ({ w with status := v }).emit (.statusWrite v)

/-- Go: `atomic.CompareAndSwapInt32(&status, old, new)`. -/
def CompareAndSwapInt32 (old new : Int) (w : World) : Bool × World :=
  if w.status = old then (true, w.storeStatus new) else (false, w)

/-- Why the Go runtime stopped the program. -/
inductive PanicKind where
  /-- The call `make([]client.ClientConnection, n)` with a length it does not accept. -/
  | makeslice
  /-- The dereference of a nil `*CallResult` in `r.Resp.RespId`. -/
  | nilDeref
deriving DecidableEq, Repr

/-- How a function that may end the process comes back: a normal return, the exit of
`log.Fatalf` in `buildConnections` (slot and error), or a run-time panic. -/
inductive Outcome (ρ : Type) where
  | ret (v : ρ)
  | fatal (i : Nat) (err : GoError)
  | panic (why : PanicKind)
deriving DecidableEq, Repr

/-! ## `readAllResults` -/

/-- The format arguments of the line printed for a result: `r.Resp.RespId`, `r.Status`,
`r.Elapsed`. -/
def resultLine (r : CallResult) : Line :=
  .result r.Resp.RespId r.Status r.Elapsed

/-- The `for { select { ... } }` loop of `readAllResults` on the buffered pointers: the
receive case is taken while an entry is buffered, the `default` case otherwise. A nil
pointer is received and then dereferenced by `r.Resp.RespId`, which panics. Returns what
is left in the buffer. -/
def readAllResultsLoop :
    List (Option CallResult) → World → Outcome Unit × List (Option CallResult) × World
  | [], w => (.ret (), [], w.emit (.print .chEmpty))
  | some r :: rest, w => readAllResultsLoop rest (w.emit (.print (resultLine r)))
  | none :: rest, w => (.panic .nilDeref, rest, w)

/-- Go: `readAllResults(rCh)`, with no other goroutine writing to `rCh`. -/
def readAllResults (rCh : Chan) (w : World) : Outcome Unit × Chan × World :=
  let out := readAllResultsLoop rCh.buf w
  (out.1, { rCh with buf := out.2.1 }, out.2.2)

/-! ## `stop` and `sendResult` -/

/-- Go: `stop(err)`. Both branches of the `if` return nil. -/
def stop (err : Option GoError) (w : World) : Option GoError × World :=
  let w1 := w.emit (.log .info (.stopBecause err))
  let cas := CompareAndSwapInt32 STATUS_RUNNING STATUS_STOPPING w1
  if !cas.1 then (none, cas.2) else (none, cas.2)

/-- Go: `sendResult(r)`: the status gate, then the non-blocking send. The pointer `r`
is not dereferenced. -/
def sendResult (r : Option CallResult) (w : World) : Bool × World :=
  if w.status ≠ STATUS_RUNNING then
    (false, w)
  else if w.restulCh.buf.length < w.restulCh.cap then
    (true, { w with restulCh := { w.restulCh with buf := w.restulCh.buf ++ [r] } })
  else
    (false, w.emit (.log .warn .channelFull))

/-! ## The driver interface -/

/-- The methods of package `client` the daemon calls (`client.Driver` and
`client.ClientConnection`), whose implementations are not part of this program. `δ` is
the state of the driver, `κ` the connections, `α` the requests, `β` the responses. Each
method returns its Go result pair and the next driver state; `BuildResp` returns a
pointer, possibly nil. -/
structure Client (δ κ α β : Type) where
  CreateConnection : δ → (κ × Option GoError) × δ
  GetID : δ → Int × δ
  BuildReq : κ → δ → (α × Option GoError) × δ
  Call : κ → α → δ → (β × Option GoError) × δ
  BuildResp : κ → β → δ → (Option CallResult × Option GoError) × δ

/-! ## `buildConnections` -/

/-- The loop `for i := range ccs` of `buildConnections`, with `n` slots still to fill
from slot `i` on. `log.Fatalf` ends the process. -/
def buildConnectionsLoop {δ κ α β : Type} (cl : Client δ κ α β) :
    Nat → Nat → List κ → δ → World → Outcome (List κ) × δ × World
  | 0, _, ccs, d, w => (.ret ccs, d, w)
  | n + 1, i, ccs, d, w =>
      let cc := cl.CreateConnection d
      let w1 := w.emit .CreateConnection
      match cc.1.2 with
      | some err => (.fatal i err, cc.2, w1.emit (.log .fatal (.createFailed i err)))
      | none => buildConnectionsLoop cl n (i + 1) (ccs.set i cc.1.1) cc.2 w1

/-- Go: `buildConnections(ctx)` with `*numConn = numConn`. The statement
`make([]client.ClientConnection, *numConn)` stops the program when the length is
negative or larger than `maxLen`, the largest length the Go runtime accepts for this
slice on the machine (a constant of the runtime, not of this program: on 64-bit Linux at
most 2^44, from `maxAlloc = 2^48` bytes and 16 bytes per interface value). Otherwise the
slice starts with `numConn` zero values (`default`). `numConn` is the value of a Go
`int`; `maxLen` is below the largest `int`, so the integers no `int` can hold are among
those on which `make` panics here. -/
def buildConnections {δ κ α β : Type} [Inhabited κ] (cl : Client δ κ α β) (maxLen : Nat)
    (numConn : Int) (d : δ) (w : World) : Outcome (List κ) × δ × World :=
  if numConn < 0 ∨ (maxLen : Int) < numConn then (.panic .makeslice, d, w)
  else buildConnectionsLoop cl numConn.toNat 0 (List.replicate numConn.toNat default) d w

/-! ## `asynCall` -/

/-- Go: `handleCallError(req, err)`; its body is empty. -/
def handleCallError {α : Type} (_req : α) (_err : GoError) (w : World) : World := w

/-- Go: `asynCall(ctx, conn, _wg)`, as one step on the shared state. The wait-group and
the timeout context are not part of this state. The errors of `Call` and `BuildResp` are
discarded and the pointer `BuildResp` returned is passed on as it is. -/
def asynCall {δ κ α β : Type} (cl : Client δ κ α β) (conn : κ) (d : δ) (w : World) :
    Option GoError × δ × World :=
  let br := cl.BuildReq conn d
  let w1 := w.emit .BuildReq
  match br.1.2 with
  | some err =>
      let w2 := handleCallError br.1.1 err (w1.emit (.handleCallError err))
      (some err, br.2, w2)
  | none =>
      let c := cl.Call conn br.1.1 br.2
      let w2 := w1.emit .Call
      let rs := cl.BuildResp conn c.1.1 c.2
      let w3 := w2.emit .BuildResp
      let sr := sendResult rs.1.1 (w3.emit (.sendResult rs.1.1))
      (none, rs.2, sr.2)

/-! ## `main` -/

/-- What the other goroutines (Pacers and their calls) can do to the shared state while
`main` runs: call `stop`, call `sendResult`, run a whole `asynCall`, print the line of a
tick (`runWithConnection`), write the log line of a batch (`runQps`). -/
inductive EnvAct (κ : Type) where
  | stop (err : Option GoError)
  | sendResult (r : Option CallResult)
  | asynCall (conn : κ)
  | tick
  | qpsCost
deriving DecidableEq, Repr

/-- One action of another goroutine on the driver state and the shared state. -/
def envStep {δ κ α β : Type} (cl : Client δ κ α β) (s : δ × World) : EnvAct κ → δ × World
  | .stop err => (s.1, (stop err s.2).2)
  | .sendResult r => (s.1, (sendResult r s.2).2)
  | .asynCall conn => (asynCall cl conn s.1 s.2).2
  | .tick => (s.1, s.2.emit (.print .timeOmit))
  | .qpsCost => (s.1, s.2.emit (.log .info .qpsCost))

/-- One step while `main` is in its `for { select }` loop and the deadline has not been
taken: another goroutine acts, or `main` takes the case `r := <-restulCh`. -/
inductive LoopAct (κ : Type) where
  | env (a : EnvAct κ)
  | recv
deriving DecidableEq, Repr

/-- Effect of one `LoopAct`. The receive case is not ready on an empty channel; a nil
pointer is received and then dereferenced by `r.Resp.RespId`, which panics. -/
def mainLoopStep {δ κ α β : Type} (cl : Client δ κ α β) (s : δ × World) :
    LoopAct κ → Outcome Unit × δ × World
  | .env a => (.ret (), envStep cl s a)
  | .recv =>
      match s.2.restulCh.buf with
      | [] => (.ret (), s)
      | none :: rest =>
          (.panic .nilDeref, s.1, { s.2 with restulCh := { s.2.restulCh with buf := rest } })
      | some r :: rest =>
          (.ret (), s.1, ({ s.2 with restulCh := { s.2.restulCh with buf := rest } }).emit
            (.print (resultLine r)))

/-- The `for { select }` loop of `main` up to the moment the deadline case is taken. -/
def mainLoop {δ κ α β : Type} (cl : Client δ κ α β) :
    List (LoopAct κ) → δ × World → Outcome Unit × δ × World
  | [], s => (.ret (), s)
  | a :: rest, s =>
      match mainLoopStep cl s a with
      | (.ret _, s1) => mainLoop cl rest s1
      | (.fatal i err, s1) => (.fatal i err, s1)
      | (.panic why, s1) => (.panic why, s1)

/-- The loop `for _, cs := range css` of `main`: `wg.Add(1)` and the `go` statement. -/
def startPacers {κ : Type} : List κ → Nat → World → World
  | [], _, w => w
  | _ :: rest, i, w => startPacers rest (i + 1) ((w.emit .wgAdd).emit (.goRunWithConnection i))

/-- The error of an expired deadline context. -/
def deadlineExceeded : Option GoError := some "context deadline exceeded"

/-- The deadline branch up to the return of `wg.Wait()`: the call
`stop(deadlineContext.Err())`, then what the other goroutines do (`envWait`) until all
Pacers have returned. -/
def waitState {δ κ α β : Type} (cl : Client δ κ α β) (envWait : List (EnvAct κ))
    (s : δ × World) : δ × World :=
  envWait.foldl (envStep cl) (s.1, (stop deadlineExceeded s.2).2)

/-- The case `<-deadlineContext.Done()` of `main`, statement by statement; `envWait` is
what the other goroutines do before `wg.Wait()` returns. -/
def deadlineBranch {δ κ α β : Type} (cl : Client δ κ α β) (envWait : List (EnvAct κ))
    (s : δ × World) : Outcome Unit × δ × World :=
  let s2 := waitState cl envWait s
  let w3 := s2.2.emit .wgWait
  let rd := readAllResults w3.restulCh w3
  let w4 := { rd.2.2 with restulCh := rd.2.1 }
  match rd.1 with
  | .ret _ =>
      let w5 := w4.emit .closeCh
      let w6 := w5.emit (.log .info .finished)
      let id := cl.GetID s2.1
      let w7 := w6.emit (.print (.total id.1))
      let w8 := (CompareAndSwapInt32 STATUS_STOPPING STATUS_STOPPED w7).2
      (.ret (), id.2, w8)
  | .fatal i err => (.fatal i err, s2.1, w4)
  | .panic why => (.panic why, s2.1, w4)

/-- The world after the statement `status = STATUS_RUNNING` of `main`, a plain store to
the variable declared with `STATUS_INT`. -/
def runningWorld : World := initWorld.storeStatus STATUS_RUNNING

/-- Go: `main()` up to the end of the loop that starts the Pacers, from the initial
values of the package variables. `cl` and `d` are the driver `client.GetDriver`
returned. -/
def mainSetup {δ κ α β : Type} [Inhabited κ] (cl : Client δ κ α β) (maxLen : Nat)
    (numConn : Int) (d : δ) : Outcome Unit × δ × World :=
  match buildConnections cl maxLen numConn d runningWorld with
  | (.ret css, d2, w2) => (.ret (), d2, startPacers css 0 w2)
  | (.fatal i err, d2, w2) => (.fatal i err, d2, w2)
  | (.panic why, d2, w2) => (.panic why, d2, w2)

/-- Go: `main()` up to the moment its `select` takes the deadline case; `sched` are the
steps taken before. -/
def mainEntry {δ κ α β : Type} [Inhabited κ] (cl : Client δ κ α β) (maxLen : Nat)
    (numConn : Int) (sched : List (LoopAct κ)) (d : δ) : Outcome Unit × δ × World :=
  match mainSetup cl maxLen numConn d with
  | (.ret _, s) => mainLoop cl sched s
  | (.fatal i err, s) => (.fatal i err, s)
  | (.panic why, s) => (.panic why, s)

/-- Go: `main()`. `envWait` are the steps of the other goroutines during `wg.Wait()`. -/
def main {δ κ α β : Type} [Inhabited κ] (cl : Client δ κ α β) (maxLen : Nat)
    (numConn : Int) (sched : List (LoopAct κ)) (envWait : List (EnvAct κ)) (d : δ) :
    Outcome Unit × δ × World :=
  match mainEntry cl maxLen numConn sched d with
  | (.ret _, s) => deadlineBranch cl envWait s
  | (.fatal i err, s) => (.fatal i err, s)
  | (.panic why, s) => (.panic why, s)

/-- The value stored, for a store to the status word. -/
def Event.written : Event → Option Int
  | .statusWrite v => some v
  | _ => none

/-- The values stored to the status word along a trace, in order. -/
def statusWrites (tr : List Obs) : List Int :=
  tr.filterMap (fun o => o.ev.written)

/-- The values the status word has held, in order: its initial value and every value
stored afterwards. -/
def statusHistory (init : Int) (tr : List Obs) : List Int :=
  init :: statusWrites tr

/-! ## One Pacer: `runWithConnection` and `runQps` as a transition system -/

/-- Where the Pacer goroutine stands. -/
inductive PacerPc where
  /-- In `runWithConnection`, at the `select` on `ctx.Done()` and `throttle`. -/
  | waitTick
  /-- In `runQps`, at the test `i < *qps` of the `for` loop. -/
  | runQpsLoop (i : Nat)
  /-- In `runQps`, at `qwg.Wait()`. -/
  | runQpsWait
  /-- After `runWithConnection` returned. -/
  | returned
deriving DecidableEq, Repr

/-- One Pacer and the calls it started. `qwg` is the counter of the wait-group local to
`runQps`; `inflight` holds, for each `asynCall` goroutine started and not yet finished,
the number of the batch that started it; `batch` counts the batches started. -/
structure Pacer where
  pc : PacerPc
  ctxDone : Bool
  batch : Nat
  qwg : Nat
  inflight : List Nat
deriving DecidableEq, Repr

/-- A Pacer that has just entered `runWithConnection`. -/
def Pacer.init : Pacer :=
  { pc := .waitTick, ctxDone := false, batch := 0, qwg := 0, inflight := [] }

/-- Steps of the Pacer, its calls and its context. -/
inductive PacerAct where
  /-- The deadline of `ctx` expires. -/
  | deadline
  /-- In `runWithConnection` the case `<-ctx.Done()` is taken: `return stop(ctx.Err())`. -/
  | ctxCase
  /-- In `runWithConnection` the case `<-throttle` is taken: `runQps` is called and
  reaches its own `select`. -/
  | tickCase
  /-- One iteration of the `for` loop of `runQps`: `qwg.Add(1)`, `go asynCall(...)`. -/
  | spawn
  /-- The loop test fails; `runQps` goes on to `qwg.Wait()`. -/
  | loopExit
  /-- The in-flight call at position `k` returns; its deferred `_wg.Done()` runs. -/
  | callDone (k : Nat)
  /-- The call `qwg.Wait()` returns and `runQps` returns to `runWithConnection`. -/
  | waitReturn
deriving DecidableEq, Repr

/-- The step function; `none` when the step cannot be taken in this state. -/
def pacerStep (qps : Int) (s : Pacer) : PacerAct → Option Pacer
  | .deadline => some { s with ctxDone := true }
  | .ctxCase =>
      if s.pc = .waitTick ∧ s.ctxDone = true then some { s with pc := .returned } else none
  | .tickCase =>
      if s.pc = .waitTick then
        if s.ctxDone = true then some s
        else some { s with pc := .runQpsLoop 0, batch := s.batch + 1 }
      else none
  | .spawn =>
      match s.pc with
      | .runQpsLoop i =>
          if (i : Int) < qps then
            some { s with pc := .runQpsLoop (i + 1), qwg := s.qwg + 1,
                          inflight := s.inflight ++ [s.batch] }
          else none
      | _ => none
  | .loopExit =>
      match s.pc with
      | .runQpsLoop i => if (i : Int) < qps then none else some { s with pc := .runQpsWait }
      | _ => none
  | .callDone k =>
      if k < s.inflight.length then
        some { s with qwg := s.qwg - 1, inflight := s.inflight.eraseIdx k }
      else none
  | .waitReturn =>
      if s.pc = .runQpsWait ∧ s.qwg = 0 then some { s with pc := .waitTick } else none

/-- Run a schedule of steps; `none` when one of them cannot be taken. -/
def pacerRun (qps : Int) : Pacer → List PacerAct → Option Pacer
  | s, [] => some s
  | s, a :: rest => (pacerStep qps s a).bind (fun s1 => pacerRun qps s1 rest)

/-! ## Concrete inputs and notions used in the statements -/

/-- A driver whose state is the number of calls it has answered. The connection created
by the call numbered `d` is `d + 1`; creation fails on the call numbered `failAt` (if
any). Requests are built without error, every second `Call` times out, and `BuildResp`
returns a result whose id is the response. -/
def testClient (failAt : Option Nat) : Client Nat Nat Nat Nat where
  CreateConnection := fun d =>
    ((d + 1, if failAt = some d then some "refused" else none), d + 1)
  GetID := fun d => ((d : Int), d)
  BuildReq := fun _ d => ((d, none), d + 1)
  Call := fun _ req d => ((req + 1, if req % 2 = 0 then none else some "timeout"), d + 1)
  BuildResp := fun _ resp d =>
    ((some { Resp := { RespId := (resp : Int) }, Status := 0, Elapsed := 5 }, none), d)

/-- A driver like `testClient none` whose `BuildResp` fails: it returns a nil result
and an error. -/
def nilClient : Client Nat Nat Nat Nat where
  CreateConnection := fun d => ((d + 1, none), d + 1)
  GetID := fun d => ((d : Int), d)
  BuildReq := fun _ d => ((d, none), d + 1)
  Call := fun _ req d => ((req + 1, none), d + 1)
  BuildResp := fun _ _ d => ((none, some "bad response"), d)

/-- The slice-length limit of `make` used in the concrete runs: 2^44, the largest
number of 16-byte interface values below `maxAlloc = 2^48` bytes (64-bit Linux). -/
def maxLen64 : Nat := 2 ^ 44

/-- Number of calls, in a sequence of `stop` calls run one after the other, that change
the status word. -/
def stopChanges : List (Option GoError) → World → Nat
  | [], _ => 0
  | e :: rest, w =>
      (if (stop e w).2.status = w.status then 0 else 1) + stopChanges rest (stop e w).2

/-- The world after a sequence of `stop` calls run one after the other. -/
def stopAll (errs : List (Option GoError)) (w : World) : World :=
  errs.foldl (fun v e => (stop e v).2) w

/-- A call result used as a concrete input. -/
def sampleResult : CallResult := { Resp := { RespId := 1 }, Status := 0, Elapsed := 5 }

/-- A world after shutdown began: status STOPPING, the result channel empty. -/
def stoppingWorld : World :=
  { status := STATUS_STOPPING, restulCh := { cap := restulChCap, buf := [] }, trace := [] }

/-- A running world whose result channel is full. -/
def fullWorld : World :=
  { status := STATUS_RUNNING,
    restulCh := { cap := restulChCap, buf := List.replicate restulChCap (some sampleResult) },
    trace := [] }

/-- The driver state after `k` calls of `CreateConnection` from state `d`. -/
def driverAfter {δ κ α β : Type} (cl : Client δ κ α β) : Nat → δ → δ
  | 0, d => d
  | k + 1, d => driverAfter cl k (cl.CreateConnection d).2

/-- The result pair (connection, error) of the call of `CreateConnection` numbered `k`
(from 0) when the driver starts in state `d`. -/
def nthCreate {δ κ α β : Type} (cl : Client δ κ α β) (k : Nat) (d : δ) : κ × Option GoError :=
  (cl.CreateConnection (driverAfter cl k d)).1

/-- The trace entries of `n` calls of `CreateConnection` made with status `st`. -/
def createEffects (n : Nat) (st : Int) : List Obs :=
  List.replicate n { ev := .CreateConnection, status := st }

/-- Effects made by the other goroutines: the log line of `stop`, the calls of
`asynCall`, the line of a tick and the log line of a batch. -/
def Event.ofOthers : Event → Bool
  | .log .info (.stopBecause _) => true
  | .log .info .qpsCost => true
  | .print .timeOmit => true
  | .BuildReq => true
  | .handleCallError _ => true
  | .Call => true
  | .BuildResp => true
  | .sendResult _ => true
  | _ => false

/-- Is the effect a call of `sendResult`? -/
def Event.isSendResult : Event → Bool
  | .sendResult _ => true
  | _ => false

/-- Is the effect a call of the method `Call` of the connection? -/
def Event.isCall : Event → Bool
  | .Call => true
  | _ => false

/-- Is the effect a call of `handleCallError`? -/
def Event.isHandleCallError : Event → Bool
  | .handleCallError _ => true
  | _ => false

/-- Number of effects of a given kind in a trace. -/
def countEv (p : Event → Bool) (tr : List Obs) : Nat :=
  tr.countP (fun o => p o.ev)

/-- The trace entry of one printed result line. -/
def resultObs (st : Int) (r : CallResult) : Obs :=
  { ev := .print (resultLine r), status := st }

/-- The state of a run of `main` once `status = STATUS_RUNNING` has been executed and as
long as the deadline branch has not finished: the first effect of the trace is that
store, and the status is RUNNING with no later store, or STOPPING with the one store of
STOPPING after it. -/
def Started (w : World) : Prop :=
  ∃ rest, w.trace = { ev := .statusWrite STATUS_RUNNING, status := STATUS_RUNNING } :: rest ∧
    ((w.status = STATUS_RUNNING ∧ statusWrites rest = []) ∨
     (w.status = STATUS_STOPPING ∧ statusWrites rest = [STATUS_STOPPING]))

/-- The effects of the call `stop(deadlineContext.Err())` of `main` made with status
`st`: its log line and, if the status is still RUNNING, the store of STOPPING. -/
def stopEffects (st : Int) : List Obs :=
  [{ ev := .log .info (.stopBecause deadlineExceeded), status := st }] ++
  (if st = STATUS_RUNNING then
    [{ ev := .statusWrite STATUS_STOPPING, status := STATUS_STOPPING }] else [])

/-- The effects of the deadline branch from the return of `wg.Wait()` on, when the
channel holds the results `rs` and the driver reports `total`: one line per result, the
line of the empty channel, `close`, the log line, the summary line, the store of
STOPPED. -/
def shutdownEffects (rs : List CallResult) (total : Int) : List Obs :=
  [{ ev := .wgWait, status := STATUS_STOPPING }] ++
  rs.map (resultObs STATUS_STOPPING) ++
  [{ ev := .print .chEmpty, status := STATUS_STOPPING },
   { ev := .closeCh, status := STATUS_STOPPING },
   { ev := .log .info .finished, status := STATUS_STOPPING },
   { ev := .print (.total total), status := STATUS_STOPPING },
   { ev := .statusWrite STATUS_STOPPED, status := STATUS_STOPPED }]

/-- The invariant of a Pacer: the wait-group counter of `runQps` counts the calls in
flight, all calls in flight belong to the current batch, and none is in flight while the
Pacer is at its `select` or has returned. -/
def PacerInv (s : Pacer) : Prop :=
  s.qwg = s.inflight.length ∧ (∀ b ∈ s.inflight, b = s.batch) ∧
    (s.pc = .waitTick ∨ s.pc = .returned → s.inflight = [])

/-- A schedule of one Pacer with `qps = 2`: one tick, both calls started, both finished,
`qwg.Wait()` returned. -/
def sampleSchedule : List PacerAct :=
  [.tickCase, .spawn, .spawn, .loopExit, .callDone 0, .callDone 0, .waitReturn]

/-- The Pacer after `sampleSchedule`. -/
def sampleEnd : Pacer :=
  { pc := .waitTick, ctxDone := false, batch := 1, qwg := 0, inflight := [] }

/-- A run of `main` with one connection (the connection 1 of `testClient`) and one call
per tick, before the deadline: two ticks, each with its call and its log line; the first
result is consumed by the loop of `main`, the second stays buffered. -/
def sampleSched : List (LoopAct Nat) :=
  [.env .tick, .env (.asynCall 1), .env .qpsCost, .recv,
   .env .tick, .env (.asynCall 1), .env .qpsCost]

/-- What the one Pacer does during `wg.Wait()` in the sample runs: it takes the case
`<-ctx.Done()` and returns through `stop(ctx.Err())`. -/
def sampleEnvWait : List (EnvAct Nat) := [.stop deadlineExceeded]

/-! ## Theorems: `sendResult` -/

/-- C1: whenever the status is not RUNNING (the initial value, STARTING, STOPPING, STOPPED
or any other value), `sendResult` returns false and the result channel is exactly as it
was, whatever it holds and whatever free capacity it has. -/
theorem sendResult_rejects_unless_running (r : Option CallResult) (w : World)
    (h : w.status ≠ STATUS_RUNNING) :
    (sendResult r w).1 = false ∧ (sendResult r w).2.restulCh = w.restulCh := by
  simp [sendResult, h]

/-- C1 at a concrete input: status STOPPING, an empty channel of capacity 100000. -/
theorem sendResult_rejects_unless_running_witness :
    stoppingWorld.status ≠ STATUS_RUNNING ∧
    stoppingWorld.restulCh.buf.length < stoppingWorld.restulCh.cap ∧
    (sendResult (some sampleResult) stoppingWorld).1 = false ∧
    (sendResult (some sampleResult) stoppingWorld).2.restulCh = stoppingWorld.restulCh :=
  ⟨by decide, by decide,
    sendResult_rejects_unless_running (some sampleResult) stoppingWorld (by decide)⟩

/-- C2: the result channel has capacity 100000; a channel holding at most that many
entries holds at most that many after `sendResult`, for every status; and when the
status is RUNNING and the channel is full, `sendResult` returns false and the buffered
entries are the same, in the same order. -/
theorem sendResult_respects_capacity (r : Option CallResult) (w : World)
    (hcap : w.restulCh.cap = restulChCap) (hlen : w.restulCh.buf.length ≤ restulChCap) :
    initWorld.restulCh.cap = 100000 ∧ restulChCap = 100000 ∧
    (sendResult r w).2.restulCh.cap = restulChCap ∧
    (sendResult r w).2.restulCh.buf.length ≤ restulChCap ∧
    (w.status = STATUS_RUNNING → w.restulCh.buf.length = restulChCap →
      (sendResult r w).1 = false ∧ (sendResult r w).2.restulCh.buf = w.restulCh.buf) := by
  refine ⟨rfl, rfl, ?_, ?_, ?_⟩
  · unfold sendResult
    split_ifs <;> simp [World.emit, hcap]
  · unfold sendResult
    split_ifs with h1 h2
    · simpa using hlen
    · simp only [List.length_append, List.length_singleton]
      omega
    · simpa [World.emit] using hlen
  · intro hs hfull
    have hnot : ¬ w.restulCh.buf.length < w.restulCh.cap := by omega
    simp [sendResult, hs, hnot, World.emit]

/-- C2 at a concrete input: status RUNNING and a channel holding 100000 entries. -/
theorem sendResult_respects_capacity_witness :
    fullWorld.status = STATUS_RUNNING ∧ fullWorld.restulCh.buf.length = restulChCap ∧
    (sendResult (some sampleResult) fullWorld).1 = false ∧
    (sendResult (some sampleResult) fullWorld).2.restulCh.buf = fullWorld.restulCh.buf :=
  ⟨rfl, by simp [fullWorld],
    (sendResult_respects_capacity (some sampleResult) fullWorld rfl
      (by simp [fullWorld])).2.2.2.2 rfl (by simp [fullWorld])⟩

/-- C10 fails as stated: with status STOPPING `sendResult` rejects the result and
nothing at all is logged. -/
theorem sendResult_rejection_not_logged :
    (sendResult (some sampleResult) stoppingWorld).1 = false ∧
    (sendResult (some sampleResult) stoppingWorld).2.trace = [] := by
  decide

/-- C10 as amended: `sendResult` logs the warning `result channel full`, once, exactly
when the status is RUNNING and the channel is full; in every other case, the rejection
for a status other than RUNNING included, it logs nothing. In both cases it returns false. -/
theorem sendResult_warns_only_when_full (r : Option CallResult) (w : World) :
    (sendResult r w).2.trace =
      (if w.status = STATUS_RUNNING ∧ ¬ w.restulCh.buf.length < w.restulCh.cap then
        w.trace ++ [{ ev := .log .warn .channelFull, status := w.status }]
      else w.trace) ∧
    ((sendResult r w).1 = false ↔
      (w.status ≠ STATUS_RUNNING ∨ ¬ w.restulCh.buf.length < w.restulCh.cap)) := by
  by_cases hs : w.status = STATUS_RUNNING <;>
    by_cases hf : w.restulCh.buf.length < w.restulCh.cap <;>
    simp [sendResult, hs, hf, World.emit]

/-! ## Theorems: `stop` -/

/-- Shared fact: the status after `stop`. -/
theorem stop_status (err : Option GoError) (w : World) :
    (stop err w).2.status = (if w.status = STATUS_RUNNING then STATUS_STOPPING else w.status) := by
  by_cases hs : w.status = STATUS_RUNNING <;>
    simp [stop, CompareAndSwapInt32, World.storeStatus, World.emit, hs]

/-- Shared fact: after `stop` the status is not RUNNING. -/
theorem stop_status_ne_running (err : Option GoError) (w : World) :
    (stop err w).2.status ≠ STATUS_RUNNING := by
  rw [stop_status]
  split_ifs with h
  · decide
  · exact h

/-- Shared fact: a sequence of `stop` calls started outside RUNNING changes nothing. -/
theorem stopAll_status_of_ne_running (errs : List (Option GoError)) :
    ∀ w : World, w.status ≠ STATUS_RUNNING →
      (stopAll errs w).status = w.status ∧ stopChanges errs w = 0 := by
  induction errs with
  | nil => intro w _; exact ⟨rfl, rfl⟩
  | cons e rest ih =>
      intro w hw
      have h1 : (stop e w).2.status = w.status := by rw [stop_status, if_neg hw]
      have h2 := ih (stop e w).2 (by rw [h1]; exact hw)
      refine ⟨?_, ?_⟩
      · show (stopAll rest (stop e w).2).status = w.status
        rw [h2.1, h1]
      · simp [stopChanges, h1, h2.2]

/-- C4: `stop` returns nil, moves the status to STOPPING when it is RUNNING and leaves it
unchanged otherwise; every call after a first one leaves the status unchanged, and in any
sequence of calls at most one changes the status. -/
theorem stop_idempotent_trigger (err : Option GoError) (w : World) :
    (stop err w).1 = none ∧
    (stop err w).2.status =
      (if w.status = STATUS_RUNNING then STATUS_STOPPING else w.status) ∧
    (∀ errs : List (Option GoError),
      (stopAll errs (stop err w).2).status = (stop err w).2.status) ∧
    (∀ err2 : Option GoError,
      (stop err2 (stop err w).2).1 = none ∧
      (stop err2 (stop err w).2).2.status = (stop err w).2.status) ∧
    (∀ errs : List (Option GoError), stopChanges (err :: errs) w ≤ 1) := by
  have hret : ∀ (e : Option GoError) (v : World), (stop e v).1 = none := by
    intro e v
    simp only [stop]
    split_ifs <;> rfl
  refine ⟨hret err w, stop_status err w, ?_, ?_, ?_⟩
  · intro errs
    exact (stopAll_status_of_ne_running errs _ (stop_status_ne_running err w)).1
  · intro err2
    refine ⟨hret _ _, ?_⟩
    rw [stop_status, if_neg (stop_status_ne_running err w)]
  · intro errs
    have h := (stopAll_status_of_ne_running errs _ (stop_status_ne_running err w)).2
    simp only [stopChanges, h]
    split_ifs <;> omega

/-! ## Theorems: `readAllResults` -/

/-- Shared fact: the drain loop on a buffer without nil pointers. -/
theorem readAllResultsLoop_some (rs : List CallResult) :
    ∀ w : World, readAllResultsLoop (rs.map some) w =
      (.ret (), [], { w with trace := (w.trace ++ rs.map (resultObs w.status) ++
          [{ ev := .print .chEmpty, status := w.status }]) }) := by
  induction rs with
  | nil => intro w; simp [readAllResultsLoop, World.emit]
  | cons r rest ih =>
      intro w
      simp [readAllResultsLoop, ih, World.emit, resultObs]

/-- Shared fact: the drain loop on a buffer whose first nil pointer comes after the
results `rs`. -/
theorem readAllResultsLoop_nil (rs : List CallResult) (post : List (Option CallResult)) :
    ∀ w : World, readAllResultsLoop (rs.map some ++ none :: post) w =
      (.panic .nilDeref, post, { w with trace := (w.trace ++ rs.map (resultObs w.status)) }) := by
  induction rs with
  | nil => intro w; simp [readAllResultsLoop]
  | cons r rest ih =>
      intro w
      simp [readAllResultsLoop, ih, World.emit, resultObs]

/-- Shared fact: a buffer holds no nil pointer, or a first one. -/
theorem buf_cases (buf : List (Option CallResult)) :
    (∃ rs : List CallResult, buf = rs.map some) ∨
    (∃ (rs : List CallResult) (post : List (Option CallResult)),
      buf = rs.map some ++ none :: post) := by
  induction buf with
  | nil => exact Or.inl ⟨[], rfl⟩
  | cons e rest ih =>
      cases e with
      | none => exact Or.inr ⟨[], rest, rfl⟩
      | some r =>
          rcases ih with ⟨rs, h⟩ | ⟨rs, post, h⟩
          · exact Or.inl ⟨r :: rs, by simp [h]⟩
          · exact Or.inr ⟨r :: rs, post, by simp [h]⟩

/-- C8 fails as stated: on a channel holding one nil pointer `readAllResults` does not
return; it receives the entry, panics on `r.Resp.RespId` and prints nothing. Such a
content arises in the program itself: with a driver whose `BuildResp` returns a nil
result and an error, one call puts a nil pointer into the channel and the drain of
`main` panics. -/
theorem readAllResults_panics_on_nil_entry :
    readAllResults { cap := restulChCap, buf := [none] } stoppingWorld =
      (.panic .nilDeref, { cap := restulChCap, buf := [] }, stoppingWorld) ∧
    (readAllResults { cap := restulChCap, buf := [none] } stoppingWorld).1 ≠ .ret () ∧
    (main nilClient maxLen64 1 [.env .tick, .env (.asynCall 1), .env .qpsCost]
      sampleEnvWait 0).1 = .panic .nilDeref := by
  decide

/-- C8 as amended: on every finite channel content without nil pointer (the results
`rs`, oldest first) `readAllResults` returns; it prints one result line per buffered
entry, oldest first, then the line for the empty channel, and leaves the channel empty;
on an empty channel it prints only that last line. Nothing else changes. -/
theorem readAllResults_drains_fifo (rCh : Chan) (w : World) (rs : List CallResult)
    (h : rCh.buf = rs.map some) :
    readAllResults rCh w =
      (.ret (), { rCh with buf := [] },
       { w with trace := (w.trace ++ rs.map (resultObs w.status) ++
          [{ ev := .print .chEmpty, status := w.status }]) }) ∧
    (readAllResults { rCh with buf := [] } w =
      (.ret (), { rCh with buf := [] }, w.emit (.print .chEmpty))) := by
  refine ⟨?_, ?_⟩
  · simp [readAllResults, h, readAllResultsLoop_some]
  · simp [readAllResults, readAllResultsLoop]

/-- C8 as amended, at a concrete input: a channel holding two results. -/
theorem readAllResults_drains_fifo_witness :
    ({ cap := restulChCap, buf := [some sampleResult, some sampleResult] } : Chan).buf =
      [sampleResult, sampleResult].map some ∧
    readAllResults { cap := restulChCap, buf := [some sampleResult, some sampleResult] }
        stoppingWorld =
      (.ret (), { cap := restulChCap, buf := [] },
       { stoppingWorld with trace :=
          [resultObs STATUS_STOPPING sampleResult, resultObs STATUS_STOPPING sampleResult,
           { ev := .print .chEmpty, status := STATUS_STOPPING }] }) :=
  ⟨rfl, (readAllResults_drains_fifo
    { cap := restulChCap, buf := [some sampleResult, some sampleResult] } stoppingWorld
    [sampleResult, sampleResult] rfl).1⟩

/-! ## Theorems: `asynCall` -/

/-- Shared fact: `sendResult` adds no effect other than the warning. -/
theorem sendResult_countEv (p : Event → Bool) (hp : p (.log .warn .channelFull) = false)
    (r : Option CallResult) (w : World) :
    countEv p (sendResult r w).2.trace = countEv p w.trace := by
  unfold sendResult
  split_ifs <;> simp [countEv, World.emit, List.countP_append, hp]

/-- C7: `asynCall` calls `sendResult` exactly when `BuildReq` succeeds: it makes one
`sendResult` call and one `Call` if `BuildReq` returned no error, and none of either
otherwise. When `BuildReq` fails with `err`, the only effects are the `BuildReq` call and
the `handleCallError` call, status and result channel are unchanged, and `err` is
returned. When `BuildReq` succeeds, the effects are `BuildReq`, `Call`, `BuildResp` and
one `sendResult` call on the result `BuildResp` built, whatever error `Call` (or
`BuildResp`) returned, and nil is returned. -/
theorem asynCall_offers_result_iff_request_built {δ κ α β : Type} (cl : Client δ κ α β)
    (conn : κ) (d : δ) (w : World) :
    (countEv Event.isSendResult (asynCall cl conn d w).2.2.trace =
      countEv Event.isSendResult w.trace +
        (if (cl.BuildReq conn d).1.2 = none then 1 else 0)) ∧
    (countEv Event.isCall (asynCall cl conn d w).2.2.trace =
      countEv Event.isCall w.trace + (if (cl.BuildReq conn d).1.2 = none then 1 else 0)) ∧
    (countEv Event.isHandleCallError (asynCall cl conn d w).2.2.trace =
      countEv Event.isHandleCallError w.trace +
        (if (cl.BuildReq conn d).1.2 = none then 0 else 1)) ∧
    match (cl.BuildReq conn d).1.2 with
    | some err =>
        asynCall cl conn d w =
          (some err, (cl.BuildReq conn d).2,
            { w with trace := (w.trace ++
              [{ ev := .BuildReq, status := w.status },
               { ev := .handleCallError err, status := w.status }]) })
    | none =>
        (asynCall cl conn d w).1 = none ∧
        (asynCall cl conn d w).2.2 =
          (sendResult
            (cl.BuildResp conn (cl.Call conn (cl.BuildReq conn d).1.1 (cl.BuildReq conn d).2).1.1
              (cl.Call conn (cl.BuildReq conn d).1.1 (cl.BuildReq conn d).2).2).1.1
            { w with trace := (w.trace ++
              [{ ev := .BuildReq, status := w.status },
               { ev := .Call, status := w.status },
               { ev := .BuildResp, status := w.status },
               { ev := .sendResult
                   (cl.BuildResp conn
                     (cl.Call conn (cl.BuildReq conn d).1.1 (cl.BuildReq conn d).2).1.1
                     (cl.Call conn (cl.BuildReq conn d).1.1 (cl.BuildReq conn d).2).2).1.1,
                 status := w.status }]) }).2 := by
  cases h : (cl.BuildReq conn d).1.2 with
  | some err =>
      simp [asynCall, h, handleCallError, World.emit, countEv, List.countP_append,
        Event.isSendResult, Event.isCall, Event.isHandleCallError]
  | none =>
      have hw : (asynCall cl conn d w).2.2 =
          (sendResult
            (cl.BuildResp conn (cl.Call conn (cl.BuildReq conn d).1.1 (cl.BuildReq conn d).2).1.1
              (cl.Call conn (cl.BuildReq conn d).1.1 (cl.BuildReq conn d).2).2).1.1
            { w with trace := (w.trace ++
              [{ ev := .BuildReq, status := w.status },
               { ev := .Call, status := w.status },
               { ev := .BuildResp, status := w.status },
               { ev := .sendResult
                   (cl.BuildResp conn
                     (cl.Call conn (cl.BuildReq conn d).1.1 (cl.BuildReq conn d).2).1.1
                     (cl.Call conn (cl.BuildReq conn d).1.1 (cl.BuildReq conn d).2).2).1.1,
                 status := w.status }]) }).2 := by
        simp [asynCall, h, World.emit]
      refine ⟨?_, ?_, ?_, ?_, hw⟩
      · rw [hw, sendResult_countEv _ rfl]
        simp [countEv, List.countP_append, Event.isSendResult]
      · rw [hw, sendResult_countEv _ rfl]
        simp [countEv, List.countP_append, Event.isCall]
      · rw [hw, sendResult_countEv _ rfl]
        simp [countEv, List.countP_append, Event.isHandleCallError]
      · simp [asynCall, h]

/-! ## Theorems: `buildConnections` -/

/-- Shared fact: the loop of `buildConnections` either fills every remaining slot with
the connection of a successful creation, making exactly one call per slot, or stops at
the first failing creation, right after that call. Only the trace of the world changes. -/
theorem buildConnectionsLoop_spec {δ κ α β : Type} (cl : Client δ κ α β) (n : Nat) :
    ∀ (i : Nat) (ccs : List κ) (d : δ), i + n = ccs.length →
      (∃ out, out.length = ccs.length ∧
          (∀ j, j < i → out[j]? = ccs[j]?) ∧
          (∀ k, k < n → out[i + k]? = some (nthCreate cl k d).1 ∧ (nthCreate cl k d).2 = none) ∧
          ∀ w : World, buildConnectionsLoop cl n i ccs d w =
            (.ret out, driverAfter cl n d,
              { w with trace := (w.trace ++ createEffects n w.status) })) ∨
      (∃ k err, k < n ∧ (nthCreate cl k d).2 = some err ∧
          (∀ j, j < k → (nthCreate cl j d).2 = none) ∧
          ∀ w : World, buildConnectionsLoop cl n i ccs d w =
            (.fatal (i + k) err, driverAfter cl (k + 1) d,
              { w with trace := (w.trace ++ createEffects (k + 1) w.status ++
                [{ ev := .log .fatal (.createFailed (i + k) err), status := w.status }]) })) := by
  induction n with
  | zero =>
      intro i ccs d _
      refine Or.inl ⟨ccs, rfl, fun _ _ => rfl, fun k hk => absurd hk (Nat.not_lt_zero k), ?_⟩
      intro w
      simp [buildConnectionsLoop, driverAfter, createEffects]
  | succ n ih =>
      intro i ccs d hlen
      cases herr : (cl.CreateConnection d).1.2 with
      | some err =>
          refine Or.inr ⟨0, err, Nat.succ_pos n, ?_, ?_, ?_⟩
          · simpa [nthCreate, driverAfter] using herr
          · intro j hj
            exact absurd hj (Nat.not_lt_zero j)
          · intro w
            simp [buildConnectionsLoop, herr, World.emit, driverAfter, createEffects]
      | none =>
          have hi : i < ccs.length := by omega
          have hlen2 : (i + 1) + n = (ccs.set i (cl.CreateConnection d).1.1).length := by
            rw [List.length_set]; omega
          rcases ih (i + 1) (ccs.set i (cl.CreateConnection d).1.1) (cl.CreateConnection d).2 hlen2
            with ⟨out, hout, hlow, hhigh, hrun⟩ | ⟨k, err, hk, hfail, hok, hrun⟩
          · refine Or.inl ⟨out, ?_, ?_, ?_, ?_⟩
            · rw [hout, List.length_set]
            · intro j hj
              rw [hlow j (by omega), List.getElem?_set_ne (by omega)]
            · intro k hk
              cases k with
              | zero =>
                  refine ⟨?_, ?_⟩
                  · rw [Nat.add_zero, hlow i (by omega), List.getElem?_set_self hi]
                    rfl
                  · simpa [nthCreate, driverAfter] using herr
              | succ k =>
                  have h := hhigh k (by omega)
                  have e : i + (k + 1) = i + 1 + k := by omega
                  rw [e]
                  exact h
            · intro w
              simp only [buildConnectionsLoop, herr]
              rw [hrun]
              simp [World.emit, driverAfter, createEffects, List.replicate_succ]
          · refine Or.inr ⟨k + 1, err, by omega, hfail, ?_, ?_⟩
            · intro j hj
              cases j with
              | zero => simpa [nthCreate, driverAfter] using herr
              | succ j => exact hok j (by omega)
            · intro w
              simp only [buildConnectionsLoop, herr]
              rw [hrun]
              have e : i + (k + 1) = i + 1 + k := by omega
              simp [World.emit, driverAfter, createEffects, List.replicate_succ, e]

/-- Shared fact: `buildConnections` with a count `make` accepts. -/
theorem buildConnections_spec {δ κ α β : Type} [Inhabited κ] (cl : Client δ κ α β)
    (maxLen : Nat) (numConn : Int) (hN : 0 ≤ numConn) (hmax : numConn ≤ maxLen) (d : δ) :
    (∃ out : List κ, (out.length : Int) = numConn ∧
        (∀ k, k < out.length →
          out[k]? = some (nthCreate cl k d).1 ∧ (nthCreate cl k d).2 = none) ∧
        ∀ w : World, buildConnections cl maxLen numConn d w =
          (.ret out, driverAfter cl out.length d,
            { w with trace := (w.trace ++ createEffects out.length w.status) })) ∨
    (∃ (k : Nat) (err : GoError), (k : Int) < numConn ∧ (nthCreate cl k d).2 = some err ∧
        (∀ j, j < k → (nthCreate cl j d).2 = none) ∧
        ∀ w : World, buildConnections cl maxLen numConn d w =
          (.fatal k err, driverAfter cl (k + 1) d,
            { w with trace := (w.trace ++ (createEffects (k + 1) w.status ++
                [{ ev := .log .fatal (.createFailed k err), status := w.status }])) })) := by
  have hneg : ¬ (numConn < 0 ∨ (maxLen : Int) < numConn) := by omega
  have hlen0 : 0 + numConn.toNat = (List.replicate numConn.toNat (default : κ)).length := by
    simp
  rcases buildConnectionsLoop_spec cl numConn.toNat 0 _ d hlen0
    with ⟨out, hout, _, hhigh, hrun⟩ | ⟨k, err, hk, hfail, hok, hrun⟩
  · have hl : out.length = numConn.toNat := by simpa using hout
    refine Or.inl ⟨out, ?_, ?_, ?_⟩
    · rw [hl]; exact Int.toNat_of_nonneg hN
    · intro k hk
      have h := hhigh k (by omega)
      simpa using h
    · intro w
      simp only [buildConnections, if_neg hneg]
      rw [hrun, hl]
  · refine Or.inr ⟨k, err, by omega, hfail, hok, ?_⟩
    intro w
    simp only [buildConnections, if_neg hneg]
    rw [hrun]
    simp

/-- Shared fact: `main` when `buildConnections` ends the process with `log.Fatalf`. -/
theorem main_of_fatal {δ κ α β : Type} [Inhabited κ] (cl : Client δ κ α β) (maxLen : Nat)
    (numConn : Int) (sched : List (LoopAct κ)) (envWait : List (EnvAct κ)) (d : δ)
    (i : Nat) (err : GoError) (d2 : δ) (w2 : World)
    (h : buildConnections cl maxLen numConn d runningWorld = (.fatal i err, d2, w2)) :
    main cl maxLen numConn sched envWait d = (.fatal i err, d2, w2) := by
  simp [main, mainEntry, mainSetup, h]

/-- Shared fact: `main` when `buildConnections` panics. -/
theorem main_of_panic {δ κ α β : Type} [Inhabited κ] (cl : Client δ κ α β) (maxLen : Nat)
    (numConn : Int) (sched : List (LoopAct κ)) (envWait : List (EnvAct κ)) (d : δ)
    (why : PanicKind) (d2 : δ) (w2 : World)
    (h : buildConnections cl maxLen numConn d runningWorld = (.panic why, d2, w2)) :
    main cl maxLen numConn sched envWait d = (.panic why, d2, w2) := by
  simp [main, mainEntry, mainSetup, h]

/-- C5 fails as stated: for the positive count 2^62 the statement `make` of
`buildConnections` panics: no connection is returned although no `CreateConnection` call
failed (none was made, the driver state and the trace are unchanged), and `main` ends
with that panic. -/
theorem buildConnections_panics_on_huge_count :
    (0 : Int) < 2 ^ 62 ∧
    buildConnections (testClient none) maxLen64 (2 ^ 62) 0 runningWorld =
      (.panic .makeslice, 0, runningWorld) ∧
    (∀ k : Nat, (nthCreate (testClient none) k 0).2 = none) ∧
    (main (testClient none) maxLen64 (2 ^ 62) [] [] 0).1 = .panic .makeslice := by
  refine ⟨by decide, by decide, ?_, by decide⟩
  intro k
  simp [nthCreate, testClient]

/-- C5 as amended: for a positive connection count N that `make` accepts (N at most
`maxLen`), `buildConnections` either returns exactly N connections, slot k holding the
connection of the successful creation numbered k, after exactly N `CreateConnection`
calls; or it ends the process at the first failing creation, numbered i, after exactly
i + 1 calls, and then `main` ends with that fatal exit, its only effects being the store
of RUNNING, these calls and the fatal log line (no Pacer is started). For N above
`maxLen` the statement `make` panics before any call and `main` ends with that panic. -/
theorem buildConnections_all_or_abort {δ κ α β : Type} [Inhabited κ] (cl : Client δ κ α β)
    (maxLen : Nat) (numConn : Int) (hN : 0 < numConn) (d : δ) :
    (numConn ≤ maxLen →
      (∃ ccs : List κ, (ccs.length : Int) = numConn ∧
          (∀ k, k < ccs.length →
            ccs[k]? = some (nthCreate cl k d).1 ∧ (nthCreate cl k d).2 = none) ∧
          ∀ w : World, buildConnections cl maxLen numConn d w =
            (.ret ccs, driverAfter cl ccs.length d,
              { w with trace := (w.trace ++ createEffects ccs.length w.status) })) ∨
      (∃ (i : Nat) (err : GoError), (i : Int) < numConn ∧
          (nthCreate cl i d).2 = some err ∧
          (∀ j, j < i → (nthCreate cl j d).2 = none) ∧
          (∀ w : World, buildConnections cl maxLen numConn d w =
            (.fatal i err, driverAfter cl (i + 1) d,
              { w with trace := (w.trace ++ (createEffects (i + 1) w.status ++
                [{ ev := .log .fatal (.createFailed i err), status := w.status }])) })) ∧
          ∀ (sched : List (LoopAct κ)) (envWait : List (EnvAct κ)),
            main cl maxLen numConn sched envWait d =
              (.fatal i err, driverAfter cl (i + 1) d,
                { runningWorld with trace := (runningWorld.trace ++
                  (createEffects (i + 1) STATUS_RUNNING ++
                [{ ev := .log .fatal (.createFailed i err), status := STATUS_RUNNING }])) }))) ∧
    ((maxLen : Int) < numConn →
      (∀ w : World, buildConnections cl maxLen numConn d w = (.panic .makeslice, d, w)) ∧
      ∀ (sched : List (LoopAct κ)) (envWait : List (EnvAct κ)),
        main cl maxLen numConn sched envWait d = (.panic .makeslice, d, runningWorld)) := by
  refine ⟨?_, ?_⟩
  · intro hmax
    rcases buildConnections_spec cl maxLen numConn (le_of_lt hN) hmax d
      with ⟨out, hlen, hslots, hrun⟩ | ⟨k, err, hk, hfail, hok, hrun⟩
    · exact Or.inl ⟨out, hlen, hslots, hrun⟩
    · refine Or.inr ⟨k, err, hk, hfail, hok, hrun, ?_⟩
      intro sched envWait
      exact main_of_fatal cl maxLen numConn sched envWait d k err _ _ (hrun runningWorld)
  · intro hbig
    have hb : ∀ w : World,
        buildConnections cl maxLen numConn d w = (.panic .makeslice, d, w) := by
      intro w
      simp [buildConnections, hbig]
    refine ⟨hb, ?_⟩
    intro sched envWait
    exact main_of_panic cl maxLen numConn sched envWait d _ _ _ (hb runningWorld)

/-- C5 as amended, at a concrete input: three connections asked for, the second
creation fails. -/
theorem buildConnections_all_or_abort_witness :
    (0 : Int) < 3 ∧ (3 : Int) ≤ maxLen64 ∧
    main (testClient (some 1)) maxLen64 3 sampleSched sampleEnvWait 0 =
      (.fatal 1 "refused", 2,
        { status := STATUS_RUNNING, restulCh := { cap := restulChCap, buf := [] },
          trace := [{ ev := .statusWrite STATUS_RUNNING, status := STATUS_RUNNING },
                    { ev := .CreateConnection, status := STATUS_RUNNING },
                    { ev := .CreateConnection, status := STATUS_RUNNING },
                    { ev := .log .fatal (.createFailed 1 "refused"),
                      status := STATUS_RUNNING }] }) ∧
    ((∃ ccs : List Nat, (ccs.length : Int) = 3 ∧
          (∀ k, k < ccs.length →
            ccs[k]? = some (nthCreate (testClient (some 1)) k 0).1 ∧
            (nthCreate (testClient (some 1)) k 0).2 = none) ∧
          ∀ w : World, buildConnections (testClient (some 1)) maxLen64 3 0 w =
            (.ret ccs, driverAfter (testClient (some 1)) ccs.length 0,
              { w with trace := (w.trace ++ createEffects ccs.length w.status) })) ∨
      (∃ (i : Nat) (err : GoError), (i : Int) < 3 ∧
          (nthCreate (testClient (some 1)) i 0).2 = some err ∧
          (∀ j, j < i → (nthCreate (testClient (some 1)) j 0).2 = none) ∧
          (∀ w : World, buildConnections (testClient (some 1)) maxLen64 3 0 w =
            (.fatal i err, driverAfter (testClient (some 1)) (i + 1) 0,
              { w with trace := (w.trace ++ (createEffects (i + 1) w.status ++
                [{ ev := .log .fatal (.createFailed i err), status := w.status }])) })) ∧
          ∀ (sched : List (LoopAct Nat)) (envWait : List (EnvAct Nat)),
            main (testClient (some 1)) maxLen64 3 sched envWait 0 =
              (.fatal i err, driverAfter (testClient (some 1)) (i + 1) 0,
                { runningWorld with trace := (runningWorld.trace ++
                  (createEffects (i + 1) STATUS_RUNNING ++
                [{ ev := .log .fatal (.createFailed i err), status := STATUS_RUNNING }])) }))) :=
  ⟨by decide, by decide, by decide,
    (buildConnections_all_or_abort (testClient (some 1)) maxLen64 3 (by decide) 0).1
      (by decide)⟩

/-! ## Theorems: the status word along a run of `main` -/

/-- Shared fact: a list of effects none of which is a store has no status writes. -/
theorem statusWrites_eq_nil (evs : List Obs) (h : ∀ o ∈ evs, o.ev.written = none) :
    statusWrites evs = [] := by
  induction evs with
  | nil => rfl
  | cons o rest ih =>
      have h1 := h o (List.mem_cons_self o rest)
      have h2 := ih (fun x hx => h x (List.mem_cons_of_mem o hx))
      simp only [statusWrites, List.filterMap_cons, h1]
      exact h2

/-- Shared fact: `statusWrites` distributes over append. -/
theorem statusWrites_append (a b : List Obs) :
    statusWrites (a ++ b) = statusWrites a ++ statusWrites b := by
  simp [statusWrites, List.filterMap_append]

/-- Shared fact: the effects of the other goroutines counted in `ofOthers` are not
stores. -/
theorem written_of_ofOthers (e : Event) (h : e.ofOthers = true) : e.written = none := by
  cases e <;> first | rfl | cases h

/-- Shared fact: calls of `CreateConnection` are not stores. -/
theorem statusWrites_createEffects (n : Nat) (st : Int) :
    statusWrites (createEffects n st) = [] := by
  apply statusWrites_eq_nil
  intro o ho
  rw [List.eq_of_mem_replicate ho]
  rfl

/-- Shared fact: appending effects that are not stores keeps `Started`. -/
theorem started_append {w : World} (hw : Started w) (ch : Chan) (evs : List Obs)
    (h : ∀ o ∈ evs, o.ev.written = none) :
    Started { status := w.status, restulCh := ch, trace := w.trace ++ evs } := by
  obtain ⟨rest, htr, hst⟩ := hw
  refine ⟨rest ++ evs, by simp [htr], ?_⟩
  rw [statusWrites_append, statusWrites_eq_nil evs h, List.append_nil]
  exact hst

/-- Shared fact: an effect that is not a store keeps `Started`. -/
theorem started_emit {w : World} (hw : Started w) (e : Event) (h : e.written = none) :
    Started (w.emit e) := by
  have := started_append hw w.restulCh [{ ev := e, status := w.status }]
    (by intro o ho; rw [List.mem_singleton.mp ho]; exact h)
  exact this

/-- Shared fact: `stop` keeps `Started`. -/
theorem started_stop {w : World} (hw : Started w) (err : Option GoError) :
    Started (stop err w).2 := by
  obtain ⟨rest, htr, hst⟩ := hw
  rcases hst with ⟨hs, hwr⟩ | ⟨hs, hwr⟩
  · refine ⟨rest ++ [{ ev := .log .info (.stopBecause err), status := w.status },
      { ev := .statusWrite STATUS_STOPPING, status := STATUS_STOPPING }], ?_, Or.inr ⟨?_, ?_⟩⟩
    · simp [stop, CompareAndSwapInt32, World.storeStatus, World.emit, hs, htr]
    · simp [stop, CompareAndSwapInt32, World.storeStatus, World.emit, hs]
    · rw [statusWrites_append, hwr]
      rfl
  · have hne : w.status ≠ STATUS_RUNNING := by rw [hs]; decide
    have hne2 : STATUS_STOPPING ≠ STATUS_RUNNING := by decide
    refine ⟨rest ++ [{ ev := .log .info (.stopBecause err), status := w.status }], ?_,
      Or.inr ⟨?_, ?_⟩⟩
    · simp [stop, CompareAndSwapInt32, World.storeStatus, World.emit, hne, htr]
    · simp [stop, CompareAndSwapInt32, World.storeStatus, World.emit, hne2, hs]
    · rw [statusWrites_append, hwr]
      rfl

/-- Shared fact: `sendResult` keeps `Started`. -/
theorem started_sendResult {w : World} (hw : Started w) (r : Option CallResult) :
    Started (sendResult r w).2 := by
  unfold sendResult
  split_ifs with h1 h2
  · exact hw
  · have := started_append hw { w.restulCh with buf := w.restulCh.buf ++ [r] } [] (by simp)
    simpa using this
  · exact started_emit hw _ rfl

/-- Shared fact: `asynCall` keeps `Started`. -/
theorem started_asynCall {δ κ α β : Type} {w : World} (hw : Started w)
    (cl : Client δ κ α β) (conn : κ) (d : δ) : Started (asynCall cl conn d w).2.2 := by
  cases h : (cl.BuildReq conn d).1.2 with
  | some err =>
      simp only [asynCall, h, handleCallError]
      refine started_emit (started_emit hw _ ?_) _ ?_ <;> rfl
  | none =>
      simp only [asynCall, h]
      refine started_sendResult
        (started_emit (started_emit (started_emit (started_emit hw _ ?_) _ ?_) _ ?_) _ ?_) _ <;>
        rfl

/-- Shared fact: every step of another goroutine keeps `Started`. -/
theorem started_envStep {δ κ α β : Type} (cl : Client δ κ α β) (a : EnvAct κ)
    (s : δ × World) (hw : Started s.2) : Started (envStep cl s a).2 := by
  cases a with
  | stop err => exact started_stop hw err
  | sendResult r => exact started_sendResult hw r
  | asynCall conn => exact started_asynCall hw cl conn s.1
  | tick => exact started_emit hw _ rfl
  | qpsCost => exact started_emit hw _ rfl

/-- Shared fact: every step taken while `main` is in its loop keeps `Started`, and the
only way such a step ends the program is the dereference of a nil result. -/
theorem started_mainLoopStep {δ κ α β : Type} (cl : Client δ κ α β) (a : LoopAct κ)
    (s : δ × World) (hw : Started s.2) :
    Started (mainLoopStep cl s a).2.2 ∧
    ((mainLoopStep cl s a).1 = .ret () ∨ (mainLoopStep cl s a).1 = .panic .nilDeref) := by
  cases a with
  | env a => exact ⟨started_envStep cl a s hw, Or.inl rfl⟩
  | recv =>
      simp only [mainLoopStep]
      split
      · exact ⟨hw, Or.inl rfl⟩
      · next rest hbuf =>
          refine ⟨?_, Or.inr rfl⟩
          have := started_append hw { s.2.restulCh with buf := rest } [] (by simp)
          simpa using this
      · next r rest hbuf =>
          refine ⟨?_, Or.inl rfl⟩
          have := started_append hw { s.2.restulCh with buf := rest }
            [{ ev := .print (resultLine r), status := s.2.status }]
            (by intro o ho; rw [List.mem_singleton.mp ho]; rfl)
          exact this

/-- Shared fact: the whole loop of `main` keeps `Started`, and it ends the program only
by the dereference of a nil result. -/
theorem started_mainLoop {δ κ α β : Type} (cl : Client δ κ α β) (sched : List (LoopAct κ)) :
    ∀ s : δ × World, Started s.2 →
      Started (mainLoop cl sched s).2.2 ∧
      ((mainLoop cl sched s).1 = .ret () ∨ (mainLoop cl sched s).1 = .panic .nilDeref) := by
  induction sched with
  | nil => intro s hs; exact ⟨hs, Or.inl rfl⟩
  | cons a rest ih =>
      intro s hs
      obtain ⟨h1, h2⟩ := started_mainLoopStep cl a s hs
      rcases hstep : mainLoopStep cl s a with ⟨o, s1⟩
      rw [hstep] at h1 h2
      cases o with
      | ret u =>
          simp only [mainLoop, hstep]
          exact ih s1 h1
      | fatal i err =>
          rcases h2 with h2 | h2 <;> cases h2
      | panic why =>
          simp only [mainLoop, hstep]
          refine ⟨h1, Or.inr ?_⟩
          rcases h2 with h2 | h2
          · cases h2
          · exact h2

/-- Shared fact: starting the Pacers keeps `Started` and the status. -/
theorem started_startPacers {κ : Type} (css : List κ) :
    ∀ (i : Nat) (w : World), Started w →
      Started (startPacers css i w) ∧ (startPacers css i w).status = w.status := by
  induction css with
  | nil => intro i w hw; exact ⟨hw, rfl⟩
  | cons c rest ih =>
      intro i w hw
      have h := ih (i + 1) ((w.emit .wgAdd).emit (.goRunWithConnection i))
        (by refine started_emit (started_emit hw _ ?_) _ ?_ <;> rfl)
      exact h

/-- Shared fact: after `status = STATUS_RUNNING`, whatever `buildConnections` does, the
world is `Started` with status RUNNING, and `buildConnections` never ends with the
dereference of a nil result. -/
theorem buildConnections_started {δ κ α β : Type} [Inhabited κ] (cl : Client δ κ α β)
    (maxLen : Nat) (numConn : Int) (d : δ) :
    Started (buildConnections cl maxLen numConn d runningWorld).2.2 ∧
    (buildConnections cl maxLen numConn d runningWorld).2.2.status = STATUS_RUNNING ∧
    (buildConnections cl maxLen numConn d runningWorld).1 ≠ .panic .nilDeref := by
  have h0 : Started runningWorld := ⟨[], rfl, Or.inl ⟨rfl, rfl⟩⟩
  by_cases hbad : numConn < 0 ∨ (maxLen : Int) < numConn
  · simp only [buildConnections, if_pos hbad]
    exact ⟨h0, rfl, by simp⟩
  · rcases buildConnections_spec cl maxLen numConn (by omega) (by omega) d
      with ⟨out, _, _, hrun⟩ | ⟨k, err, _, _, _, hrun⟩
    · rw [hrun runningWorld]
      refine ⟨started_append h0 _ _ ?_, rfl, by simp⟩
      intro o ho
      rw [List.eq_of_mem_replicate ho]
      rfl
    · rw [hrun runningWorld]
      refine ⟨started_append h0 _ _ ?_, rfl, by simp⟩
      intro o ho
      rcases List.mem_append.mp ho with ho | ho
      · rw [List.eq_of_mem_replicate ho]
        rfl
      · rw [List.mem_singleton.mp ho]
        rfl

/-- Shared fact: the state in which `main` reaches its deadline case, or ends before. It
is `Started`; if the program ended there by anything but a nil result, it ended in
`buildConnections` with status RUNNING. -/
theorem mainEntry_started {δ κ α β : Type} [Inhabited κ] (cl : Client δ κ α β)
    (maxLen : Nat) (numConn : Int) (sched : List (LoopAct κ)) (d : δ) :
    Started (mainEntry cl maxLen numConn sched d).2.2 ∧
    ((mainEntry cl maxLen numConn sched d).1 ≠ .ret () →
      (mainEntry cl maxLen numConn sched d).1 ≠ .panic .nilDeref →
      (mainEntry cl maxLen numConn sched d).2.2.status = STATUS_RUNNING) := by
  obtain ⟨hb1, hb2, hb3⟩ := buildConnections_started cl maxLen numConn d
  rcases hbc : buildConnections cl maxLen numConn d runningWorld with ⟨o, d2, w2⟩
  rw [hbc] at hb1 hb2 hb3
  cases o with
  | ret css =>
      have hsp := started_startPacers css 0 w2 hb1
      have hl := started_mainLoop cl sched (d2, startPacers css 0 w2) hsp.1
      simp only [mainEntry, mainSetup, hbc]
      refine ⟨hl.1, ?_⟩
      intro h1 h2
      rcases hl.2 with h | h
      · exact absurd h h1
      · exact absurd h h2
  | fatal i err =>
      simp only [mainEntry, mainSetup, hbc]
      exact ⟨hb1, fun _ _ => hb2⟩
  | panic why =>
      simp only [mainEntry, mainSetup, hbc]
      exact ⟨hb1, fun _ _ => hb2⟩

/-! ## Theorems: the deadline branch of `main` -/

/-- Shared fact: once the status is not RUNNING, a step of another goroutine changes
neither the status nor the result channel; it only adds effects of its own. -/
theorem envStep_not_running {δ κ α β : Type} (cl : Client δ κ α β) (a : EnvAct κ) (d : δ)
    (w : World) (h : w.status ≠ STATUS_RUNNING) :
    ∃ d1 evs, (∀ o ∈ evs, o.ev.ofOthers = true ∧ o.status = w.status) ∧
      envStep cl (d, w) a = (d1, { w with trace := (w.trace ++ evs) }) := by
  cases a with
  | stop err =>
      refine ⟨d, [{ ev := .log .info (.stopBecause err), status := w.status }], ?_, ?_⟩
      · intro o ho
        rw [List.mem_singleton.mp ho]
        exact ⟨rfl, rfl⟩
      · simp [envStep, stop, CompareAndSwapInt32, World.storeStatus, World.emit, h]
  | sendResult r =>
      refine ⟨d, [], by simp, ?_⟩
      simp [envStep, sendResult, h]
  | tick =>
      refine ⟨d, [{ ev := .print .timeOmit, status := w.status }], ?_, ?_⟩
      · intro o ho
        rw [List.mem_singleton.mp ho]
        exact ⟨rfl, rfl⟩
      · simp [envStep, World.emit]
  | qpsCost =>
      refine ⟨d, [{ ev := .log .info .qpsCost, status := w.status }], ?_, ?_⟩
      · intro o ho
        rw [List.mem_singleton.mp ho]
        exact ⟨rfl, rfl⟩
      · simp [envStep, World.emit]
  | asynCall conn =>
      cases hb : (cl.BuildReq conn d).1.2 with
      | some err =>
          refine ⟨(cl.BuildReq conn d).2, [{ ev := .BuildReq, status := w.status },
            { ev := .handleCallError err, status := w.status }], ?_, ?_⟩
          · intro o ho
            simp only [List.mem_cons, List.mem_singleton, List.not_mem_nil, or_false] at ho
            rcases ho with rfl | rfl <;> exact ⟨rfl, rfl⟩
          · simp [envStep, asynCall, hb, handleCallError, World.emit]
      | none =>
          refine ⟨(cl.BuildResp conn
              (cl.Call conn (cl.BuildReq conn d).1.1 (cl.BuildReq conn d).2).1.1
              (cl.Call conn (cl.BuildReq conn d).1.1 (cl.BuildReq conn d).2).2).2,
            [{ ev := .BuildReq, status := w.status },
            { ev := .Call, status := w.status }, { ev := .BuildResp, status := w.status },
            { ev := .sendResult (cl.BuildResp conn
                (cl.Call conn (cl.BuildReq conn d).1.1 (cl.BuildReq conn d).2).1.1
                (cl.Call conn (cl.BuildReq conn d).1.1 (cl.BuildReq conn d).2).2).1.1,
              status := w.status }], ?_, ?_⟩
          · intro o ho
            simp only [List.mem_cons, List.mem_singleton, List.not_mem_nil, or_false] at ho
            rcases ho with rfl | rfl | rfl | rfl <;> exact ⟨rfl, rfl⟩
          · simp [envStep, asynCall, hb, sendResult, World.emit, h]

/-- Shared fact: the same for any number of steps of other goroutines. -/
theorem envSteps_not_running {δ κ α β : Type} (cl : Client δ κ α β)
    (acts : List (EnvAct κ)) :
    ∀ (d : δ) (w : World), w.status ≠ STATUS_RUNNING →
      ∃ evs, (∀ o ∈ evs, o.ev.ofOthers = true ∧ o.status = w.status) ∧
        (acts.foldl (envStep cl) (d, w)).2 = { w with trace := (w.trace ++ evs) } := by
  induction acts with
  | nil =>
      intro d w _
      exact ⟨[], by simp, by simp⟩
  | cons a rest ih =>
      intro d w h
      obtain ⟨d1, evs1, h1, e1⟩ := envStep_not_running cl a d w h
      obtain ⟨evs2, h2, e2⟩ := ih d1 { w with trace := (w.trace ++ evs1) } h
      refine ⟨evs1 ++ evs2, ?_, ?_⟩
      · intro o ho
        rcases List.mem_append.mp ho with ho | ho
        · exact h1 o ho
        · exact h2 o ho
      · rw [List.foldl_cons, e1, e2]
        simp

/-- Shared fact: the world when `wg.Wait()` returns: the status is STOPPING, the result
channel is as it was when the deadline case was taken, and the trace has grown by the
effects of `stop` and effects of the other goroutines. -/
theorem waitState_spec {δ κ α β : Type} (cl : Client δ κ α β)
    (envWait : List (EnvAct κ)) (s : δ × World)
    (hst : s.2.status = STATUS_RUNNING ∨ s.2.status = STATUS_STOPPING) :
    ∃ mid, (∀ o ∈ mid, o.ev.ofOthers = true ∧ o.status = STATUS_STOPPING) ∧
      (waitState cl envWait s).2 =
        { status := STATUS_STOPPING, restulCh := s.2.restulCh,
          trace := s.2.trace ++ (stopEffects s.2.status ++ mid) } := by
  have hstop : (stop deadlineExceeded s.2).2 =
      { status := STATUS_STOPPING, restulCh := s.2.restulCh,
        trace := s.2.trace ++ stopEffects s.2.status } := by
    rcases hst with h | h
    · simp [stop, CompareAndSwapInt32, World.storeStatus, World.emit, h, stopEffects]
    · have hne : STATUS_STOPPING ≠ STATUS_RUNNING := by decide
      simp [stop, CompareAndSwapInt32, World.storeStatus, World.emit, h, hne, stopEffects]
  have hne : (stop deadlineExceeded s.2).2.status ≠ STATUS_RUNNING :=
    stop_status_ne_running deadlineExceeded s.2
  obtain ⟨mid, hmid, hfold⟩ := envSteps_not_running cl envWait s.1 _ hne
  refine ⟨mid, ?_, ?_⟩
  · intro o ho
    have h := hmid o ho
    rw [hstop] at h
    exact h
  · simp only [waitState, hfold]
    rw [hstop]
    simp

/-- Shared fact: the deadline branch when the channel holds no nil pointer. -/
theorem deadlineBranch_ret {δ κ α β : Type} (cl : Client δ κ α β)
    (envWait : List (EnvAct κ)) (s : δ × World)
    (hst : s.2.status = STATUS_RUNNING ∨ s.2.status = STATUS_STOPPING)
    (rs : List CallResult) (hbuf : s.2.restulCh.buf = rs.map some) :
    deadlineBranch cl envWait s =
      (.ret (), (cl.GetID (waitState cl envWait s).1).2,
        { status := STATUS_STOPPED, restulCh := { s.2.restulCh with buf := [] },
          trace := (waitState cl envWait s).2.trace ++
            shutdownEffects rs (cl.GetID (waitState cl envWait s).1).1 }) := by
  obtain ⟨mid, _, hws⟩ := waitState_spec cl envWait s hst
  simp only [deadlineBranch, readAllResults, World.emit, hws, hbuf, readAllResultsLoop_some]
  simp [CompareAndSwapInt32, World.storeStatus, World.emit, shutdownEffects]

/-- Shared fact: the deadline branch when the channel holds a nil pointer after the
results `rs`: the drain panics, with status STOPPING. -/
theorem deadlineBranch_nil {δ κ α β : Type} (cl : Client δ κ α β)
    (envWait : List (EnvAct κ)) (s : δ × World)
    (hst : s.2.status = STATUS_RUNNING ∨ s.2.status = STATUS_STOPPING)
    (rs : List CallResult) (post : List (Option CallResult))
    (hbuf : s.2.restulCh.buf = rs.map some ++ none :: post) :
    deadlineBranch cl envWait s =
      (.panic .nilDeref, (waitState cl envWait s).1,
        { status := STATUS_STOPPING, restulCh := { s.2.restulCh with buf := post },
          trace := (waitState cl envWait s).2.trace ++
            ([{ ev := .wgWait, status := STATUS_STOPPING }] ++
              rs.map (resultObs STATUS_STOPPING)) }) := by
  obtain ⟨mid, _, hws⟩ := waitState_spec cl envWait s hst
  simp only [deadlineBranch, readAllResults, World.emit, hws, hbuf, readAllResultsLoop_nil]
  simp

/-- Shared fact: the status of a `Started` world. -/
theorem started_status {w : World} (hw : Started w) :
    w.status = STATUS_RUNNING ∨ w.status = STATUS_STOPPING := by
  obtain ⟨_, _, h⟩ := hw
  rcases h with h | h
  · exact Or.inl h.1
  · exact Or.inr h.1

/-- Shared fact: the stores made by the deadline branch after `wg.Wait()`. -/
theorem statusWrites_shutdownEffects (rs : List CallResult) (total : Int) :
    statusWrites (shutdownEffects rs total) = [STATUS_STOPPED] := by
  have h2 : statusWrites (rs.map (resultObs STATUS_STOPPING)) = [] := by
    apply statusWrites_eq_nil
    intro o ho
    obtain ⟨r, _, rfl⟩ := List.mem_map.mp ho
    rfl
  unfold shutdownEffects
  simp only [statusWrites_append, h2]
  rfl

/-- Shared fact: the stores made by the call of `stop` in the deadline branch. -/
theorem statusWrites_stopEffects (st : Int) :
    statusWrites (stopEffects st) =
      (if st = STATUS_RUNNING then [STATUS_STOPPING] else []) := by
  unfold stopEffects
  split_ifs <;> rfl

/-- Shared fact: when `wg.Wait()` returns in a run of `main`, the world is `Started`
with status STOPPING. -/
theorem waitState_started {δ κ α β : Type} (cl : Client δ κ α β)
    (envWait : List (EnvAct κ)) (s : δ × World) (hs : Started s.2) :
    ∃ rest, (waitState cl envWait s).2.trace =
        { ev := .statusWrite STATUS_RUNNING, status := STATUS_RUNNING } :: rest ∧
      statusWrites rest = [STATUS_STOPPING] ∧
      (waitState cl envWait s).2.status = STATUS_STOPPING := by
  obtain ⟨mid, hmid, hws⟩ := waitState_spec cl envWait s (started_status hs)
  obtain ⟨rest, htr, hph⟩ := hs
  have hm : statusWrites mid = [] :=
    statusWrites_eq_nil mid (fun o ho => written_of_ofOthers o.ev (hmid o ho).1)
  refine ⟨rest ++ (stopEffects s.2.status ++ mid), ?_, ?_, ?_⟩
  · rw [hws]
    simp [htr]
  · rw [statusWrites_append, statusWrites_append, statusWrites_stopEffects, hm]
    rcases hph with ⟨h1, h2⟩ | ⟨h1, h2⟩
    · rw [h2, if_pos h1]
      rfl
    · have hne : s.2.status ≠ STATUS_RUNNING := by rw [h1]; decide
      rw [h2, if_neg hne]
      rfl
  · rw [hws]

/-- Shared fact: the history of a `Started` world. -/
theorem started_history {w : World} (hw : Started w) :
    w.trace.head? = some { ev := .statusWrite STATUS_RUNNING, status := STATUS_RUNNING } ∧
    statusHistory initWorld.status w.trace =
      (if w.status = STATUS_RUNNING then [STATUS_INT, STATUS_RUNNING]
       else [STATUS_INT, STATUS_RUNNING, STATUS_STOPPING]) := by
  obtain ⟨rest, htr, hph⟩ := hw
  rw [htr]
  refine ⟨rfl, ?_⟩
  show initWorld.status :: STATUS_RUNNING :: statusWrites rest = _
  rcases hph with ⟨h1, h2⟩ | ⟨h1, h2⟩
  · rw [h2, if_pos h1]
    rfl
  · have hne : w.status ≠ STATUS_RUNNING := by rw [h1]; decide
    rw [h2, if_neg hne]
    rfl

/-- Shared fact: `main` after its entry into the deadline case, or its end before. -/
theorem main_of_entry {δ κ α β : Type} [Inhabited κ] (cl : Client δ κ α β) (maxLen : Nat)
    (numConn : Int) (sched : List (LoopAct κ)) (envWait : List (EnvAct κ)) (d : δ) :
    (∃ s, mainEntry cl maxLen numConn sched d = (.ret (), s) ∧
        main cl maxLen numConn sched envWait d = deadlineBranch cl envWait s) ∨
    ((mainEntry cl maxLen numConn sched d).1 ≠ .ret () ∧
        main cl maxLen numConn sched envWait d = mainEntry cl maxLen numConn sched d) := by
  rcases h : mainEntry cl maxLen numConn sched d with ⟨o, s⟩
  cases o with
  | ret u => exact Or.inl ⟨s, rfl, by simp [main, h]⟩
  | fatal i err => exact Or.inr ⟨by simp, by simp [main, h]⟩
  | panic why => exact Or.inr ⟨by simp, by simp [main, h]⟩

/-- C9 as amended: when `main` returns it took the deadline case in a state `s` whose
channel held the results `rs` (no nil pointer), and from there its effects are, in this
order: the log line of `stop` and, if the status was still RUNNING, the store of
STOPPING; effects of the other goroutines until `wg.Wait()` returns, which leave status
and channel as they are; the return of `wg.Wait()`; one line per result of `rs`, oldest
first, and the line for the empty channel; `close(restulCh)`; the log line `finished`;
the summary line with the count the driver reports, printed while the status is
STOPPING; and last the store of STOPPED. The status is STOPPED and the result channel
empty when `main` returns. -/
theorem main_deadline_order {δ κ α β : Type} [Inhabited κ] (cl : Client δ κ α β)
    (maxLen : Nat) (numConn : Int) (sched : List (LoopAct κ)) (envWait : List (EnvAct κ))
    (d : δ) (hret : (main cl maxLen numConn sched envWait d).1 = .ret ()) :
    ∃ (s : δ × World) (rs : List CallResult) (mid : List Obs),
      mainEntry cl maxLen numConn sched d = (.ret (), s) ∧
      s.2.restulCh.buf = rs.map some ∧
      (s.2.status = STATUS_RUNNING ∨ s.2.status = STATUS_STOPPING) ∧
      (∀ o ∈ mid, o.ev.ofOthers = true ∧ o.status = STATUS_STOPPING) ∧
      (waitState cl envWait s).2 =
        { status := STATUS_STOPPING, restulCh := s.2.restulCh,
          trace := s.2.trace ++ (stopEffects s.2.status ++ mid) } ∧
      main cl maxLen numConn sched envWait d =
        (.ret (), (cl.GetID (waitState cl envWait s).1).2,
          { status := STATUS_STOPPED, restulCh := { s.2.restulCh with buf := [] },
            trace := s.2.trace ++ (stopEffects s.2.status ++ mid) ++
              shutdownEffects rs (cl.GetID (waitState cl envWait s).1).1 }) := by
  have hstart := (mainEntry_started cl maxLen numConn sched d).1
  rcases main_of_entry cl maxLen numConn sched envWait d with ⟨s, he, hm⟩ | ⟨hne, hm⟩
  · rw [he] at hstart
    have hst := started_status hstart
    obtain ⟨mid, hmid, hws⟩ := waitState_spec cl envWait s hst
    rcases buf_cases s.2.restulCh.buf with ⟨rs, hbuf⟩ | ⟨rs, post, hbuf⟩
    · refine ⟨s, rs, mid, he, hbuf, hst, hmid, hws, ?_⟩
      rw [hm, deadlineBranch_ret cl envWait s hst rs hbuf, hws]
    · rw [hm, deadlineBranch_nil cl envWait s hst rs post hbuf] at hret
      cases hret
  · rw [hm] at hret
    exact absurd hret hne

/-- C3 as amended: the status word starts at its declared value STATUS_INT; the first
effect in the trace of `main` is the plain store of RUNNING, made before
`buildConnections` and so before any Pacer is started; when `main` returns the values
held are STATUS_INT, RUNNING, STOPPING, STOPPED in this order; when the program ends
earlier they are the first two or the first three of these, according to the status at
that moment, and the first two when it ends in `buildConnections`. STARTING is never
held, and the last value of the sequence is the status at the end. -/
theorem main_status_history {δ κ α β : Type} [Inhabited κ] (cl : Client δ κ α β)
    (maxLen : Nat) (numConn : Int) (sched : List (LoopAct κ)) (envWait : List (EnvAct κ))
    (d : δ) :
    initWorld.status = STATUS_INT ∧
    (main cl maxLen numConn sched envWait d).2.2.trace.head? =
      some { ev := .statusWrite STATUS_RUNNING, status := STATUS_RUNNING } ∧
    statusHistory initWorld.status (main cl maxLen numConn sched envWait d).2.2.trace =
      (if (main cl maxLen numConn sched envWait d).1 = .ret () then
        [STATUS_INT, STATUS_RUNNING, STATUS_STOPPING, STATUS_STOPPED]
      else if (main cl maxLen numConn sched envWait d).2.2.status = STATUS_RUNNING then
        [STATUS_INT, STATUS_RUNNING]
      else [STATUS_INT, STATUS_RUNNING, STATUS_STOPPING]) ∧
    ((main cl maxLen numConn sched envWait d).1 ≠ .ret () →
      (main cl maxLen numConn sched envWait d).1 ≠ .panic .nilDeref →
      statusHistory initWorld.status (main cl maxLen numConn sched envWait d).2.2.trace =
        [STATUS_INT, STATUS_RUNNING]) ∧
    STATUS_STARTING ∉
      statusHistory initWorld.status (main cl maxLen numConn sched envWait d).2.2.trace ∧
    (statusHistory initWorld.status
        (main cl maxLen numConn sched envWait d).2.2.trace).getLast? =
      some (main cl maxLen numConn sched envWait d).2.2.status := by
  have hstart := mainEntry_started cl maxLen numConn sched d
  have key : (main cl maxLen numConn sched envWait d).2.2.trace.head? =
      some { ev := .statusWrite STATUS_RUNNING, status := STATUS_RUNNING } ∧
      statusHistory initWorld.status (main cl maxLen numConn sched envWait d).2.2.trace =
      (if (main cl maxLen numConn sched envWait d).1 = .ret () then
        [STATUS_INT, STATUS_RUNNING, STATUS_STOPPING, STATUS_STOPPED]
      else if (main cl maxLen numConn sched envWait d).2.2.status = STATUS_RUNNING then
        [STATUS_INT, STATUS_RUNNING]
      else [STATUS_INT, STATUS_RUNNING, STATUS_STOPPING]) ∧
      ((main cl maxLen numConn sched envWait d).1 = .ret () →
        (main cl maxLen numConn sched envWait d).2.2.status = STATUS_STOPPED) ∧
      ((main cl maxLen numConn sched envWait d).1 ≠ .ret () →
        (main cl maxLen numConn sched envWait d).2.2.status = STATUS_RUNNING ∨
        (main cl maxLen numConn sched envWait d).2.2.status = STATUS_STOPPING) ∧
      ((main cl maxLen numConn sched envWait d).1 ≠ .ret () →
        (main cl maxLen numConn sched envWait d).1 ≠ .panic .nilDeref →
        (main cl maxLen numConn sched envWait d).2.2.status = STATUS_RUNNING) := by
    rcases main_of_entry cl maxLen numConn sched envWait d with ⟨s, he, hm⟩ | ⟨hne, hm⟩
    · rw [he] at hstart
      have hs : Started s.2 := hstart.1
      have hst := started_status hs
      obtain ⟨rest, hwt, hwr, _⟩ := waitState_started cl envWait s hs
      rcases buf_cases s.2.restulCh.buf with ⟨rs, hbuf⟩ | ⟨rs, post, hbuf⟩
      · rw [hm, deadlineBranch_ret cl envWait s hst rs hbuf]
        refine ⟨?_, ?_, fun _ => rfl, fun h => absurd rfl h, fun h => absurd rfl h⟩
        · simp [hwt]
        · rw [if_pos rfl]
          show initWorld.status :: statusWrites _ = _
          rw [hwt]
          show initWorld.status :: STATUS_RUNNING :: statusWrites (rest ++ _) = _
          rw [statusWrites_append, hwr, statusWrites_shutdownEffects]
          rfl
      · rw [hm, deadlineBranch_nil cl envWait s hst rs post hbuf]
        have hmap : statusWrites ([{ ev := .wgWait, status := STATUS_STOPPING }] ++
            rs.map (resultObs STATUS_STOPPING)) = [] := by
          apply statusWrites_eq_nil
          intro o ho
          rcases List.mem_append.mp ho with ho | ho
          · rw [List.mem_singleton.mp ho]
            rfl
          · obtain ⟨r, _, rfl⟩ := List.mem_map.mp ho
            rfl
        refine ⟨?_, ?_, ?_, fun _ => Or.inr rfl, fun _ h => absurd rfl h⟩
        · simp [hwt]
        · have hne3 : STATUS_STOPPING ≠ STATUS_RUNNING := by decide
          rw [if_neg (by simp), if_neg hne3]
          show initWorld.status :: statusWrites _ = _
          rw [hwt]
          show initWorld.status :: STATUS_RUNNING :: statusWrites (rest ++ _) = _
          rw [statusWrites_append, hwr, hmap]
          rfl
        · intro h
          cases h
    · rw [hm]
      obtain ⟨hhead, hhist⟩ := started_history hstart.1
      refine ⟨hhead, ?_, fun h => absurd h hne, fun _ => started_status hstart.1,
        fun h1 h2 => hstart.2 h1 h2⟩
      rw [if_neg hne]
      exact hhist
  obtain ⟨k1, k2, k3, k4, k5⟩ := key
  refine ⟨rfl, k1, k2, ?_, ?_, ?_⟩
  · intro h1 h2
    rw [k2, if_neg h1, if_pos (k5 h1 h2)]
  · rw [k2]
    split_ifs <;> decide
  · rw [k2]
    by_cases hr : (main cl maxLen numConn sched envWait d).1 = .ret ()
    · rw [if_pos hr, k3 hr]
      rfl
    · rw [if_neg hr]
      rcases k4 hr with h | h
      · rw [if_pos h, h]
        rfl
      · have hne : (main cl maxLen numConn sched envWait d).2.2.status ≠ STATUS_RUNNING := by
          rw [h]; decide
        rw [if_neg hne, h]
        rfl

/-! ## Theorems: one Pacer -/

/-- Shared fact: every step keeps the Pacer invariant. -/
theorem pacerStep_inv (qps : Int) (s t : Pacer) (a : PacerAct) (hinv : PacerInv s)
    (h : pacerStep qps s a = some t) : PacerInv t := by
  obtain ⟨h1, h2, h3⟩ := hinv
  cases a with
  | deadline =>
      simp only [pacerStep, Option.some.injEq] at h
      subst h
      exact ⟨h1, h2, h3⟩
  | ctxCase =>
      simp only [pacerStep] at h
      split_ifs at h with hc
      simp only [Option.some.injEq] at h
      subst h
      exact ⟨h1, h2, fun _ => h3 (Or.inl hc.1)⟩
  | tickCase =>
      simp only [pacerStep] at h
      split_ifs at h with hc hd
      · simp only [Option.some.injEq] at h
        subst h
        exact ⟨h1, h2, h3⟩
      · simp only [Option.some.injEq] at h
        subst h
        have hnil := h3 (Or.inl hc)
        refine ⟨h1, ?_, fun _ => hnil⟩
        intro b hb
        simp only [hnil, List.not_mem_nil] at hb
  | spawn =>
      cases hpc : s.pc with
      | runQpsLoop i =>
          simp only [pacerStep, hpc] at h
          split_ifs at h with hlt
          simp only [Option.some.injEq] at h
          subst h
          refine ⟨by simp [h1], ?_, ?_⟩
          · intro b hb
            rcases List.mem_append.mp hb with hb | hb
            · exact h2 b hb
            · exact List.mem_singleton.mp hb
          · intro hp
            rcases hp with hp | hp <;> cases hp
      | waitTick => simp [pacerStep, hpc] at h
      | runQpsWait => simp [pacerStep, hpc] at h
      | returned => simp [pacerStep, hpc] at h
  | loopExit =>
      cases hpc : s.pc with
      | runQpsLoop i =>
          simp only [pacerStep, hpc] at h
          split_ifs at h with hlt
          simp only [Option.some.injEq] at h
          subst h
          refine ⟨h1, h2, ?_⟩
          intro hp
          rcases hp with hp | hp <;> cases hp
      | waitTick => simp [pacerStep, hpc] at h
      | runQpsWait => simp [pacerStep, hpc] at h
      | returned => simp [pacerStep, hpc] at h
  | callDone k =>
      simp only [pacerStep] at h
      split_ifs at h with hk
      simp only [Option.some.injEq] at h
      subst h
      refine ⟨?_, ?_, ?_⟩
      · simp only [List.length_eraseIdx, if_pos hk, h1]
      · intro b hb
        exact h2 b (List.mem_of_mem_eraseIdx hb)
      · intro hp
        have hnil := h3 hp
        rw [hnil] at hk
        exact absurd hk (Nat.not_lt_zero k)
  | waitReturn =>
      simp only [pacerStep] at h
      split_ifs at h with hc
      simp only [Option.some.injEq] at h
      subst h
      have hnil : s.inflight = [] := by
        apply List.eq_nil_of_length_eq_zero
        rw [← h1]
        exact hc.2
      exact ⟨h1, h2, fun _ => hnil⟩

/-- Shared fact: every schedule keeps the Pacer invariant. -/
theorem pacerRun_inv (qps : Int) (acts : List PacerAct) :
    ∀ s t : Pacer, PacerInv s → pacerRun qps s acts = some t → PacerInv t := by
  induction acts with
  | nil =>
      intro s t hs h
      simp only [pacerRun, Option.some.injEq] at h
      subst h
      exact hs
  | cons a rest ih =>
      intro s t hs h
      simp only [pacerRun] at h
      cases hstep : pacerStep qps s a with
      | none => simp [hstep] at h
      | some u =>
          rw [hstep] at h
          exact ih u t (pacerStep_inv qps s u a hs hstep) h

/-- Shared fact: a Pacer that just started satisfies the invariant. -/
theorem pacerInv_init : PacerInv Pacer.init :=
  ⟨rfl, fun _ hb => absurd hb (List.not_mem_nil _), fun _ => rfl⟩

/-- Shared fact: from the head of the loop of `runQps` at index `i`, the remaining
iterations each start one call, then the loop ends and `qwg.Wait()` is reached. -/
theorem pacerRun_batch (qps : Int) (m : Nat) :
    ∀ (i : Nat) (s : Pacer), s.pc = .runQpsLoop i → ((i + m : Nat) : Int) = max qps 0 →
      i ≤ qps.toNat →
      pacerRun qps s (List.replicate m .spawn ++ [.loopExit]) =
        some { s with pc := .runQpsWait, qwg := s.qwg + m,
                      inflight := s.inflight ++ List.replicate m s.batch } := by
  induction m with
  | zero =>
      intro i s hpc hi _
      have hnot : ¬ (i : Int) < qps := by
        have : ((i + 0 : Nat) : Int) = (i : Int) := by simp
        omega
      simp [pacerRun, pacerStep, hpc, hnot]
  | succ m ih =>
      intro i s hpc hi hle
      have hlt : (i : Int) < qps := by
        have : ((i + (m + 1) : Nat) : Int) = (i : Int) + m + 1 := by push_cast; ring
        omega
      have hstep : pacerStep qps s .spawn =
          some { s with pc := .runQpsLoop (i + 1), qwg := s.qwg + 1,
                        inflight := s.inflight ++ [s.batch] } := by
        simp [pacerStep, hpc, hlt]
      have hnext := ih (i + 1)
        { s with pc := .runQpsLoop (i + 1), qwg := s.qwg + 1,
                 inflight := s.inflight ++ [s.batch] } rfl
        (by rw [← hi]; congr 1; omega) (by omega)
      simp only [List.replicate_succ, List.cons_append, pacerRun, hstep, Option.some_bind]
      refine hnext.trans ?_
      simp [Nat.add_assoc, Nat.add_comm 1 m]

/-- C6 fails as stated: with `qps = 2`, after a tick started both calls the Pacer is at
`qwg.Wait()` of `runQps` with two calls in flight; it cannot return from the wait, also
not after one of the two calls finished; and no schedule at all brings it back to its
`select` with a call in flight. -/
theorem pacer_tick_waits_for_calls_in_flight :
    pacerRun 2 Pacer.init [.tickCase, .spawn, .spawn, .loopExit] =
      some { pc := .runQpsWait, ctxDone := false, batch := 1, qwg := 2, inflight := [1, 1] } ∧
    pacerRun 2 Pacer.init [.tickCase, .spawn, .spawn, .loopExit, .waitReturn] = none ∧
    pacerRun 2 Pacer.init [.tickCase, .spawn, .spawn, .loopExit, .callDone 0, .waitReturn] =
      none ∧
    ¬ ∃ (acts : List PacerAct) (s : Pacer),
      pacerRun 2 Pacer.init acts = some s ∧ s.pc = .waitTick ∧ s.inflight ≠ [] := by
  refine ⟨by decide, by decide, by decide, ?_⟩
  rintro ⟨acts, s, hrun, hpc, hne⟩
  exact hne ((pacerRun_inv 2 acts Pacer.init s pacerInv_init hrun).2.2 (Or.inl hpc))

/-- C6 as amended: in every state a Pacer can reach, whenever it is at its `select`
(waiting for the next tick) no call is in flight and the wait-group of `runQps` is at
zero; all calls in flight belong to the current batch, so two batches never overlap;
while a call is in flight neither the next tick nor the return of `qwg.Wait()` can be
taken. Handling a tick with the context not done starts exactly `qps` calls (none when
`qps` is not positive) and then reaches `qwg.Wait()`. -/
theorem pacer_waits_for_its_batch (qps : Int) (acts : List PacerAct) (s : Pacer)
    (h : pacerRun qps Pacer.init acts = some s) :
    (s.pc = .waitTick → s.inflight = [] ∧ s.qwg = 0) ∧
    (∀ b ∈ s.inflight, b = s.batch) ∧
    (s.inflight ≠ [] →
      pacerStep qps s .tickCase = none ∧ pacerStep qps s .waitReturn = none) ∧
    (s.pc = .waitTick → s.ctxDone = false →
      pacerRun qps s (.tickCase :: (List.replicate qps.toNat .spawn ++ [.loopExit])) =
        some { s with pc := .runQpsWait, batch := s.batch + 1, qwg := qps.toNat,
                      inflight := List.replicate qps.toNat (s.batch + 1) }) := by
  obtain ⟨h1, h2, h3⟩ := pacerRun_inv qps acts Pacer.init s pacerInv_init h
  have hwait : s.pc = .waitTick → s.inflight = [] ∧ s.qwg = 0 := by
    intro hpc
    have hnil := h3 (Or.inl hpc)
    exact ⟨hnil, by rw [h1, hnil]; rfl⟩
  refine ⟨hwait, h2, ?_, ?_⟩
  · intro hne
    have hpc : s.pc ≠ .waitTick := fun hp => hne (hwait hp).1
    have hq : s.qwg ≠ 0 := by
      intro hq
      apply hne
      apply List.eq_nil_of_length_eq_zero
      rw [← h1]
      exact hq
    simp [pacerStep, hpc, hq]
  · intro hpc hctx
    obtain ⟨hnil, hq⟩ := hwait hpc
    have hstep : pacerStep qps s .tickCase =
        some { s with pc := .runQpsLoop 0, batch := s.batch + 1 } := by
      simp [pacerStep, hpc, hctx]
    have hb := pacerRun_batch qps qps.toNat 0
      { s with pc := .runQpsLoop 0, batch := s.batch + 1 } rfl
      (by simp [Int.toNat_eq_max]) (Nat.zero_le _)
    simp only [pacerRun, hstep, Option.some_bind]
    refine hb.trans ?_
    simp [hnil, hq]

/-- C6 as amended, at a concrete input: `qps = 2` and the schedule `sampleSchedule`. -/
theorem pacer_waits_for_its_batch_witness :
    pacerRun 2 Pacer.init sampleSchedule = some sampleEnd ∧
    (sampleEnd.pc = .waitTick → sampleEnd.inflight = [] ∧ sampleEnd.qwg = 0) :=
  ⟨by decide, (pacer_waits_for_its_batch 2 sampleSchedule sampleEnd (by decide)).1⟩

/-! ## Concrete runs of `main`

The runs use one connection (`-c 1`). In the first no tick comes before the deadline
(`-d 0`): `main` takes its deadline case, then the Pacer takes its case `<-ctx.Done()`
and returns through `stop`. In the second the Pacer handles two ticks of one call each
(`-q 1`) before the deadline. -/

/-- C3 fails as stated: the status word starts at STATUS_INT, a value that is none of
STARTING, RUNNING, STOPPING, STOPPED, and in a run with one connection the values held
are STATUS_INT, RUNNING, STOPPING, STOPPED: RUNNING is entered from STATUS_INT and
STARTING is never held. -/
theorem status_history_starts_at_init_value :
    initWorld.status = STATUS_INT ∧
    initWorld.status ∉ [STATUS_STARTING, STATUS_RUNNING, STATUS_STOPPING, STATUS_STOPPED] ∧
    statusHistory initWorld.status
        (main (testClient none) maxLen64 1 [] sampleEnvWait 0).2.2.trace =
      [STATUS_INT, STATUS_RUNNING, STATUS_STOPPING, STATUS_STOPPED] ∧
    (statusHistory initWorld.status
        (main (testClient none) maxLen64 1 [] sampleEnvWait 0).2.2.trace).head? ≠
      some STATUS_STARTING := by
  decide

/-- C9 fails as stated: in a run with one connection the summary line is printed while
the status is still STOPPING, and the store of STOPPED is the last effect, after the
summary line. -/
theorem summary_printed_before_stopped :
    (main (testClient none) maxLen64 1 [] sampleEnvWait 0).2.2.trace =
      [{ ev := .statusWrite STATUS_RUNNING, status := STATUS_RUNNING },
       { ev := .CreateConnection, status := STATUS_RUNNING },
       { ev := .wgAdd, status := STATUS_RUNNING },
       { ev := .goRunWithConnection 0, status := STATUS_RUNNING },
       { ev := .log .info (.stopBecause deadlineExceeded), status := STATUS_RUNNING },
       { ev := .statusWrite STATUS_STOPPING, status := STATUS_STOPPING },
       { ev := .log .info (.stopBecause deadlineExceeded), status := STATUS_STOPPING },
       { ev := .wgWait, status := STATUS_STOPPING },
       { ev := .print .chEmpty, status := STATUS_STOPPING },
       { ev := .closeCh, status := STATUS_STOPPING },
       { ev := .log .info .finished, status := STATUS_STOPPING },
       { ev := .print (.total 1), status := STATUS_STOPPING },
       { ev := .statusWrite STATUS_STOPPED, status := STATUS_STOPPED }] ∧
    STATUS_STOPPING ≠ STATUS_STOPPED := by
  decide

/-- C9 as amended, at a concrete input: one connection, the schedule `sampleSched`; the
result left in the channel is printed by the final drain. -/
theorem main_deadline_order_witness :
    (main (testClient none) maxLen64 1 sampleSched sampleEnvWait 0).1 = .ret () ∧
    (mainEntry (testClient none) maxLen64 1 sampleSched 0).2.2.restulCh.buf =
      [some { Resp := { RespId := 4 }, Status := 0, Elapsed := 5 }] ∧
    ∃ (s : Nat × World) (rs : List CallResult) (mid : List Obs),
      mainEntry (testClient none) maxLen64 1 sampleSched 0 = (.ret (), s) ∧
      s.2.restulCh.buf = rs.map some ∧
      (s.2.status = STATUS_RUNNING ∨ s.2.status = STATUS_STOPPING) ∧
      (∀ o ∈ mid, o.ev.ofOthers = true ∧ o.status = STATUS_STOPPING) ∧
      (waitState (testClient none) sampleEnvWait s).2 =
        { status := STATUS_STOPPING, restulCh := s.2.restulCh,
          trace := s.2.trace ++ (stopEffects s.2.status ++ mid) } ∧
      main (testClient none) maxLen64 1 sampleSched sampleEnvWait 0 =
        (.ret (), ((testClient none).GetID (waitState (testClient none) sampleEnvWait s).1).2,
          { status := STATUS_STOPPED, restulCh := { s.2.restulCh with buf := [] },
            trace := s.2.trace ++ (stopEffects s.2.status ++ mid) ++
              shutdownEffects rs
                ((testClient none).GetID (waitState (testClient none) sampleEnvWait s).1).1 }) :=
  ⟨by decide, by decide,
    main_deadline_order (testClient none) maxLen64 1 sampleSched sampleEnvWait 0 (by decide)⟩

end Loadstress
